import Mathlib

/-!
Verification of the wu semantic-analysis visitor (src/wu/visitor/visitor.rs).

The definitions below are a shallow embedding of the type model and the
checking routines of the visitor.  Rust `HashMap<String, Type>` member maps
are embedded as association lists (`List (String × Ty)`) compared with the
same length-plus-lookup discipline `HashMap`'s `PartialEq` uses; `Rc`
indirections are dropped.  The parser, lexer and symbol-table modules are
not part of the sources, so the few values coming from them (`Pos`,
`Parser::fold_expression`, the `SymTab` operations, the `Operator` display
tokens, the payload of `TypeNode::Id`) are modelled from the specification
and marked as such in their doc comments.
-/

/-- `TypeMode` from visitor.rs (lines 158-167). -/
inductive TypeMode where
  | undeclared
  | immutable
  | optional
  | implemented
  | regular
  | splat (count : Option Nat)
  | unwrap (count : Nat)
deriving DecidableEq

/-- Rust's `Option<usize>` ordering (`None < Some _`), used by `a <= b` in
`TypeMode`'s `PartialEq`. -/
def optLe : Option Nat → Option Nat → Bool
  | none, _ => true
  | some _, none => false
  | some x, some y => decide (x ≤ y)

/-- `impl PartialEq for TypeMode` (visitor.rs lines 248-267), arms in source
order. -/
def tmEq (a b : TypeMode) : Bool :=
  match a, b with
  | .regular, .regular => true
  | .regular, .immutable => true
  | .immutable, .immutable => true
  | .immutable, .regular => true
  | _, .optional => true
  | .optional, _ => true
  | .undeclared, _ => false
  | _, .undeclared => false
  | .splat x, .splat y => (x.isNone || y.isNone) || optLe x y
  | .unwrap _, _ => true
  | _, .unwrap _ => true
  | _, _ => false

/-- `TypeMode::strong_cmp` (visitor.rs lines 169-183). -/
def tmStrongCmp (a b : TypeMode) : Bool :=
  match a, b with
  | .regular, .regular => true
  | .immutable, .immutable => true
  | .optional, .optional => true
  | .implemented, .implemented => true
  | .undeclared, .undeclared => true
  | .splat x, .splat y => x == y
  | .unwrap _, .unwrap _ => true
  | _, _ => false

/-- `impl Display for TypeMode` (visitor.rs lines 269-283). -/
def displayTypeMode : TypeMode → String
  | .regular => ""
  | .immutable => "constant "
  | .undeclared => "undeclared "
  | .optional => "optional? "
  | .implemented => ""
  | .splat _ => "..."
  | .unwrap _ => "*"

mutual
/-- `TypeNode` from visitor.rs (lines 15-33).  The `Func` variant's ignored
body reference (`Option<Rc<ExpressionNode>>`, skipped by every comparison
and by `Display`) is omitted; the `Id` payload (an `Rc<Expression>` built by
the parser, which is not part of the sources) is modelled from the spec as
an opaque token compared structurally. -/
inductive TypeNode where
  | int
  | float
  | bool
  | str
  | any
  | char
  | nil
  | id (tok : Nat)
  | array (elem : Ty) (len : Option Nat)
  | func (params : List Ty) (retty : Ty) (isMethod : Bool)
  | module (content : List (String × Ty)) (isForeign : Bool)
  | struct (name : String) (members : List (String × Ty)) (sid : String)
  | trait (name : String) (members : List (String × Ty))
  | optional (inner : TypeNode)
  | tuple (elems : List Ty)
  | this

/-- `Type` from visitor.rs (lines 285-289): a node plus a mode. -/
inductive Ty where
  | mk (node : TypeNode) (mode : TypeMode)
end

/-- Field accessor for the `node` component of a `Type`. -/
def Ty.node : Ty → TypeNode
  | .mk n _ => n

/-- Field accessor for the `mode` component of a `Type`. -/
def Ty.mode : Ty → TypeMode
  | .mk _ m => m

/-- `Type::from` (visitor.rs line 308): wrap a node with `Regular` mode. -/
def tyFrom (n : TypeNode) : Ty := Ty.mk n TypeMode.regular

/-- `HashMap::get` over the association-list embedding of a member map. -/
def lookupTy : List (String × Ty) → String → Option Ty
  | [], _ => none
  | (k, v) :: rest, key => if k == key then some v else lookupTy rest key

/-- Tie-break flag used only to order the `Struct`-vs-`Trait` retry of the
lenient equality in the termination measure. -/
def sFlag : TypeNode → Nat
  | .struct _ _ _ => 2
  | _ => 0

mutual
/-- `impl PartialEq for TypeNode` (visitor.rs lines 101-156).  The first two
arms are the `Any` wildcards; the next disjuncts encode the two guarded
`Optional` arms (`if **a == Any`) with Rust's fall-through semantics; the
remaining arms live in `tnEqRest` in source order. -/
def tnEq (a b : TypeNode) : Bool :=
  match a, b with
  | .any, _ => true
  | _, .any => true
  | a, b =>
    (match a with | .optional x => tnEq x .any | _ => false) ||
    ((match b with | .optional y => tnEq y .any | _ => false) ||
     tnEqRest a b)
termination_by 4 * (sizeOf a + sizeOf b) + sFlag a + 1
decreasing_by
  all_goals simp_wf
  all_goals
    first
    | omega
    | (have h1 : 0 < sizeOf b := by cases b <;> simp
       have h2 : sFlag x ≤ 2 := by cases x <;> simp [sFlag]
       omega)
    | (have h1 : 0 < sizeOf a := by cases a <;> simp
       have h2 : sFlag x ≤ 2 := by cases x <;> simp [sFlag]
       omega)

/-- The arms of `PartialEq for TypeNode` after the `Any`/guarded-`Optional`
arms, in source order (visitor.rs lines 111-153). -/
def tnEqRest (a b : TypeNode) : Bool :=
  match a, b with
  | .int, .int => true
  | .str, .str => true
  | .float, .float => true
  | .char, .char => true
  | .bool, .bool => true
  | .nil, .nil => true
  | .this, .this => true
  | .tuple xs, .tuple ys => tyListEq xs ys
  | .array x la, .array y lb =>
    tyEq x y && (la == none || (tnEq x.node .any && lb == none) || la == lb)
  | .id x, .id y => x == y
  | .func ap ar am, .func bp br bm => tyListEq ap bp && tyEq ar br && (am == bm)
  | .struct n _ c, .struct nb _ cb => n == nb && c == cb
  | .trait _ c, .trait _ cb => hmEq c cb
  | .trait _ c, .struct _ cb _ => traitStructSub c cb
  | .optional _, .nil => true
  | .nil, .optional _ => true
  | .optional x, .optional y => tnEq x y
  | .optional x, y => tnEq x y
  | _, .optional _ => false
  | .struct n m c, .trait nb cb => tnEq (.trait nb cb) (.struct n m c)
  | _, _ => false
termination_by 4 * (sizeOf a + sizeOf b) + sFlag a
decreasing_by
  all_goals simp_wf
  all_goals
    first
    | omega
    | (have h1 : sizeOf x.node < sizeOf x := by
         cases x
         simp [Ty.node]
         omega
       have h2 : sFlag x.node ≤ 2 := by cases _hx : x.node <;> simp [sFlag]
       omega)
    | (have h1 : sFlag x ≤ 2 := by cases x <;> simp [sFlag]
       omega)
    | (simp only [sFlag]
       omega)

/-- Derived `PartialEq` on `Type`: node and mode componentwise. -/
def tyEq (a b : Ty) : Bool :=
  match a, b with
  | .mk n1 m1, .mk n2 m2 => tnEq n1 n2 && tmEq m1 m2
termination_by 4 * (sizeOf a + sizeOf b)
decreasing_by
  simp_wf
  have h1 : sFlag n1 ≤ 2 := by cases n1 <;> simp [sFlag]
  omega

/-- Derived `PartialEq` on `Vec<Type>`: same length, elementwise. -/
def tyListEq (a b : List Ty) : Bool :=
  match a, b with
  | [], [] => true
  | x :: xs, y :: ys => tyEq x y && tyListEq xs ys
  | _, _ => false
termination_by 4 * (sizeOf a + sizeOf b)
decreasing_by
  all_goals simp_wf
  all_goals omega

/-- `PartialEq` on `HashMap<String, Type>`: equal size and every left entry
found on the right with an equal value. -/
def hmEq (a b : List (String × Ty)) : Bool :=
  (a.length == b.length) && hmSubset a b
termination_by 4 * (sizeOf a + sizeOf b) + 1
decreasing_by
  simp_wf

/-- Every entry of the first map is present in the second with an equal
value. -/
def hmSubset (a b : List (String × Ty)) : Bool :=
  match a with
  | [] => true
  | (k, v) :: rest => hmFind k v b && hmSubset rest b
termination_by 4 * (sizeOf a + sizeOf b)
decreasing_by
  all_goals simp_wf
  all_goals omega

/-- `other.get(key)` followed by value comparison. -/
def hmFind (k : String) (v : Ty) (b : List (String × Ty)) : Bool :=
  match b with
  | [] => false
  | (k2, w) :: rest => if k2 == k then tyEq v w else hmFind k v rest
termination_by 4 * (sizeOf v + sizeOf b)
decreasing_by
  all_goals simp_wf
  all_goals omega

/-- The `Trait`-vs-`Struct` arm (visitor.rs lines 131-143): every trait
member present in the struct with an equal node (mode ignored). -/
def traitStructSub (tc sc : List (String × Ty)) : Bool :=
  match tc with
  | [] => true
  | (k, v) :: rest => traitFind k v sc && traitStructSub rest sc
termination_by 4 * (sizeOf tc + sizeOf sc)
decreasing_by
  all_goals simp_wf
  all_goals omega

/-- Lookup of one trait member in the struct member map, comparing nodes. -/
def traitFind (k : String) (v : Ty) (sc : List (String × Ty)) : Bool :=
  match sc with
  | [] => false
  | (k2, Ty.mk wn _wm) :: rest => if k2 == k then tnEq v.node wn else traitFind k v rest
termination_by 4 * (sizeOf v + sizeOf sc)
decreasing_by
  all_goals simp_wf
  all_goals
    first
    | omega
    | (have h1 : sizeOf v.node < sizeOf v := by
         cases v
         simp [Ty.node]
         omega
       have h3 : sFlag v.node ≤ 2 := by cases _hv : v.node <;> simp [sFlag]
       omega)
end

/-- `TypeNode::strong_cmp` (visitor.rs lines 71-98).  Only the top level is
strict; every component comparison in its arms is Rust `==`, i.e. the
lenient `tnEq`-family above, exactly as in the source. -/
def tnStrongCmp (a b : TypeNode) : Bool :=
  match a, b with
  | .int, .int => true
  | .float, .float => true
  | .bool, .bool => true
  | .str, .str => true
  | .any, .any => true
  | .char, .char => true
  | .this, .this => true
  | .nil, .nil => true
  | .tuple xs, .tuple ys => tyListEq xs ys
  | .optional x, .optional y => tnEq x y
  | .id x, .id y => x == y
  | .array x la, .array y lb => tyEq x y && (la == none || la == lb)
  | .func ap ar am, .func bp br bm => tyListEq ap bp && tyEq ar br && (am == bm)
  | .struct n _ c, .struct nb _ cb => n == nb && c == cb
  | .trait n c, .trait nb cb => n == nb && hmEq c cb
  | _, _ => false

mutual
/-- `impl Display for TypeNode` (visitor.rs lines 186-245).  The `Id` arm
renders the captured expression's lexeme; the payload being modelled as an
opaque token, its decimal form stands in for the lexeme. -/
def displayTypeNode (t : TypeNode) : String :=
  match t with
  | .int => "int"
  | .float => "float"
  | .bool => "bool"
  | .str => "str"
  | .char => "char"
  | .nil => "nil"
  | .this => "self"
  | .any => "any"
  | .tuple content => "(" ++ displayTyListSep content ++ ")"
  | .trait name _ => name
  | .array n (some len) => "[" ++ displayTy n ++ "; " ++ toString len ++ "]"
  | .array n none => "[" ++ displayTy n ++ "]"
  | .id tok => "deid(" ++ toString tok ++ ")"
  | .module _ _ => "module"
  | .struct name _ _ => name
  | .func params retty _ => "fun(" ++ displayTyListSep params ++ ") -> " ++ displayTy retty
  | .optional inner => displayTypeNode inner ++ "?"
termination_by sizeOf t
decreasing_by
  all_goals simp_wf
  all_goals omega

/-- `impl Display for Type` (visitor.rs lines 328-332): mode then node. -/
def displayTy (t : Ty) : String :=
  match t with
  | .mk n m => displayTypeMode m ++ displayTypeNode n
termination_by sizeOf t
decreasing_by
  all_goals simp_wf
  all_goals omega

/-- Comma-separated rendering of a type list, as the `Tuple`/`Func` display
loops produce. -/
def displayTyListSep (l : List Ty) : String :=
  match l with
  | [] => ""
  | [t] => displayTy t
  | t :: rest => displayTy t ++ ", " ++ displayTyListSep rest
termination_by sizeOf l
decreasing_by
  all_goals simp_wf
  all_goals omega
end

/-- `Pos` as consumed by the visitor: the source token context and a byte
span; built by the lexer, which is not part of the sources, so it is
modelled from the spec as an opaque token plus the span pair the visitor
arithmetic manipulates. -/
structure Pos where
  fst : Nat
  snd : Nat × Nat
deriving DecidableEq

/-- The binary `Operator` variants matched by the visitor (the enum lives in
the parser, which is not part of the sources; these are exactly the variants
the visitor's `Binary` arm names). -/
inductive Operator where
  | Add
  | Sub
  | Mul
  | Div
  | Mod
  | Pow
  | And
  | Or
  | PipeLeft
  | PipeRight
  | Concat
  | Eq
  | Lt
  | Gt
  | NEq
  | LtEq
  | GtEq
deriving DecidableEq

/-- Modelled from the spec: the operator display tokens used in error
messages (`Display for Operator` lives in the parser, which is not part of
the sources); the arithmetic tokens are the spec's `+ - * / % **`. -/
def displayOp : Operator → String
  | .Add => "+"
  | .Sub => "-"
  | .Mul => "*"
  | .Div => "/"
  | .Mod => "%"
  | .Pow => "**"
  | .And => "and"
  | .Or => "or"
  | .PipeLeft => "<|"
  | .PipeRight => "|>"
  | .Concat => "++"
  | .Eq => "=="
  | .Lt => "<"
  | .Gt => ">"
  | .NEq => "!="
  | .LtEq => "<="
  | .GtEq => ">="

mutual
/-- The fragment of the parser's `ExpressionNode` the verified claims
exercise.  `nilLit` is the `nil` literal, which the visitor handles only
through its catch-all arms.  Integer literal payloads are modelled as `Nat`
(the parser is not part of the sources). -/
inductive ExpressionNode where
  | int (value : Nat)
  | str (value : String)
  | char (value : Char)
  | bool (value : Bool)
  | nilLit
  | identifier (name : String)
  | array (content : List Expression)
  | call (callee : Expression) (args : List Expression)
  | index (left : Expression) (idx : Expression)
  | binary (left : Expression) (op : Operator) (right : Expression)

/-- An expression node together with its source position. -/
inductive Expression where
  | mk (node : ExpressionNode) (pos : Pos)
end

/-- Accessor for the node of an expression. -/
def Expression.node : Expression → ExpressionNode
  | .mk n _ => n

/-- Accessor for the position of an expression. -/
def Expression.pos : Expression → Pos
  | .mk _ p => p

mutual
/-- `TypeNode::check_expression` (visitor.rs lines 36-69): the literal
fast path, matching integer literals against `Int`/`Float` and array
literals elementwise (with an exact length check when the array type has a
fixed length); everything else is `false`. -/
def checkExpression (t : TypeNode) (other : ExpressionNode) : Bool :=
  match other with
  | .int _ =>
    (match t with
     | .int | .float => true
     | _ => false)
  | .array content =>
    (match t with
     | .array elemT len =>
       (match len with
        | some l => l == content.length
        | none => true) &&
       checkExprList elemT.node content
     | _ => false)
  | _ => false
termination_by sizeOf t + sizeOf other
decreasing_by
  all_goals simp_wf
  all_goals
    first
    | omega
    | (have h1 : sizeOf elemT.node < sizeOf elemT := by
         cases elemT
         simp [Ty.node]
         omega
       omega)

/-- Elementwise `check_expression` over an array literal's contents. -/
def checkExprList (tn : TypeNode) (es : List Expression) : Bool :=
  match es with
  | [] => true
  | e :: rest => checkExpression tn e.node && checkExprList tn rest
termination_by sizeOf tn + sizeOf es
decreasing_by
  all_goals simp_wf
  all_goals
    first
    | omega
    | (have h1 : sizeOf e.node < sizeOf e := by
         cases e
         simp [Expression.node]
         omega
       omega)
end

/-- Modelled from the spec: `Parser::fold_expression` (the parser is not
part of the sources).  The spec's literal-folding fast path is only ever
consulted on already-folded literal operands in the claims below, and on a
literal folding is the identity. -/
def fold_expression (e : Expression) : Expression := e

/-- A language error as produced by the `response!` macro: message, source
position and optional note (the source file field is constant and
dropped). -/
structure VError where
  message : String
  pos : Pos
  note : Option String
deriving DecidableEq

/-- Outcome channel of the embedded checker: a language error, a Rust
`panic!`/`unreachable!` (a process abort, not a language error), or
exhaustion of the recursion fuel the embedding threads through the
traversal (the source recurses on the tree directly; every claim below is
settled with fuel large enough that exhaustion never fires). -/
inductive RunErr where
  | lang (e : VError)
  | panicked (msg : String)
  | fuelOut
deriving DecidableEq

/-- `Inside` context frames (visitor.rs lines 340-349). -/
inductive Inside where
  | Loop
  | Calling (pos : Pos)
  | Splat (count : Option Nat)
  | Implement (t : Ty)
  | ForeignModule (content : List (String × Ty))
  | Function
  | Nothing

/-- Generic association-list lookup keyed by strings (`HashMap::get`). -/
def lookupStr {α : Type} : List (String × α) → String → Option α
  | [], _ => none
  | (k, v) :: rest, key => if k == key then some v else lookupStr rest key

/-- The visitor state the verified fragment touches: the symbol-table scope
frames (innermost first), the global implementation registry, the foreign
module registry, the `inside` context stack (in `Vec` order, oldest first)
and the method-call map.  The `SymTab` representation is modelled from the
spec (section 4.2), the symbol-table module not being part of the
sources. -/
structure Visitor where
  frames : List (List (String × Ty))
  impls : List (String × List (String × Ty))
  foreignMods : List (String × List (String × Ty))
  inside : List Inside
  methodCalls : List (Pos × Bool)

/-- Replace the scope frames. -/
def Visitor.withFrames (st : Visitor) (f : List (List (String × Ty))) : Visitor :=
  Visitor.mk f st.impls st.foreignMods st.inside st.methodCalls

/-- Replace the context stack. -/
def Visitor.withInside (st : Visitor) (ins : List Inside) : Visitor :=
  Visitor.mk st.frames st.impls st.foreignMods ins st.methodCalls

/-- `self.inside.push(..)`. -/
def Visitor.pushInside (st : Visitor) (i : Inside) : Visitor :=
  st.withInside (st.inside ++ [i])

/-- `self.inside.pop()`. -/
def Visitor.popInside (st : Visitor) : Visitor :=
  st.withInside st.inside.dropLast

/-- `self.method_calls.insert(pos, true)`. -/
def Visitor.addMethodCall (st : Visitor) (p : Pos) : Visitor :=
  Visitor.mk st.frames st.impls st.foreignMods st.inside (st.methodCalls ++ [(p, true)])

/-- Modelled from the spec: `SymTab::fetch`, searching the scope frames
innermost to outermost. -/
def framesFetch : List (List (String × Ty)) → String → Option Ty
  | [], _ => none
  | f :: rest, name =>
    match lookupTy f name with
    | some t => some t
    | none => framesFetch rest name

/-- Modelled from the spec: update or insert a binding in one frame. -/
def frameAssign : List (String × Ty) → String → Ty → List (String × Ty)
  | [], name, t => [(name, t)]
  | (k, v) :: rest, name, t =>
    if k == name then (k, t) :: rest else (k, v) :: frameAssign rest name t

/-- Modelled from the spec: `SymTab::assign` into the innermost frame. -/
def framesAssign : List (List (String × Ty)) → String → Ty → List (List (String × Ty))
  | [], name, t => [[(name, t)]]
  | f :: rest, name, t => frameAssign f name t :: rest

/-- `self.assign(name, t)` on the visitor state. -/
def Visitor.assign (st : Visitor) (name : String) (t : Ty) : Visitor :=
  st.withFrames (framesAssign st.frames name t)

/-- `Visitor::is_implemented` (visitor.rs lines 2820-2826). -/
def isImplemented (st : Visitor) (sid name : String) : Bool :=
  match lookupStr st.impls sid with
  | some content => (lookupTy content name).isSome
  | none => false

/-- Modelled from the spec: `SymTab::get_implementation_force`, used once
presence is already known. -/
def getImplementationForce (st : Visitor) (sid name : String) : Option Ty :=
  match lookupStr st.impls sid with
  | some content => lookupTy content name
  | none => none

/-- The first `Implement` frame in `Vec` iteration order, as the
`for inside in self.inside.iter()` loops find it. -/
def findImplement : List Inside → Option Ty
  | [] => none
  | .Implement s :: _ => some s
  | _ :: rest => findImplement rest

/-- Whether any `Implement` frame is on the context stack. -/
def hasImplement (l : List Inside) : Bool :=
  (findImplement l).isSome

/-- `Type::is_method` (visitor.rs lines 296-302). -/
def tyIsMethod (t : Ty) : Bool :=
  match t.node with
  | .func _ _ m => m
  | _ => false

mutual
/-- `Visitor::deid` (visitor.rs lines 2768-2818) on the embedded type
grammar: recurse through `Optional` and `Func`, leave everything else
unchanged.  The `Id` arm re-runs type inference on the parser-built payload
expression, which the opaque modelling of that payload cannot replay; no
claim below constructs an `Id`, so that arm aborts instead. -/
def deid (t : Ty) : Except RunErr Ty :=
  match t with
  | .mk (.optional inner) mode => do
    let r ← deid (Ty.mk inner TypeMode.regular)
    pure (Ty.mk (.optional r.node) mode)
  | .mk (.id _) _ => .error (.panicked "deid: Id payload not modelled")
  | .mk (.func params retty m) mode => do
    let ps ← deidList params
    let r ← deid retty
    pure (Ty.mk (.func ps r m) mode)
  | _ => pure t
termination_by sizeOf t
decreasing_by
  all_goals simp_wf
  all_goals
    first
    | omega
    | (have h1 : 0 < sizeOf mode := by cases mode <;> simp
       omega)

/-- `deid` over a parameter list. -/
def deidList (ts : List Ty) : Except RunErr (List Ty) :=
  match ts with
  | [] => pure []
  | t :: rest => do
    let t2 ← deid t
    let rest2 ← deidList rest
    pure (t2 :: rest2)
termination_by sizeOf ts
decreasing_by
  all_goals simp_wf
  all_goals omega
end

/-- The uniform invalid-operation message of the `Binary` arm:
`can't perform operation `{a} {op} {b}``. -/
def invalidOp (a : TypeNode) (op : Operator) (b : TypeNode) : String :=
  "can't perform operation `" ++ displayTypeNode a ++ " " ++ displayOp op ++
    " " ++ displayTypeNode b ++ "`"

/-- The pipe-operator failure message:
`can't pipe into non-function `{a} {op} {b}``. -/
def pipeErr (a : TypeNode) (op : Operator) (b : TypeNode) : String :=
  "can't pipe into non-function `" ++ displayTypeNode a ++ " " ++ displayOp op ++
    " " ++ displayTypeNode b ++ "`"

/-- The shared `Add | Sub | Mul | Div | Mod` arm of the `Binary` branch of
`type_expression` (visitor.rs lines 2090-2140): reject `[a, b] == [Nil,
Nil]`, require `a == b` (the lenient equality) and both constructors in
`{Int, Float}`; the result is `Type::from(a)`. -/
def arithCase (a : TypeNode) (op : Operator) (b : TypeNode) (pos : Pos) :
    Except RunErr Ty :=
  if !(tnEq a .nil && tnEq b .nil) then
    if tnEq a b then
      match a with
      | .float | .int =>
        (match b with
         | .float | .int => pure (tyFrom a)
         | _ => .error (.lang (VError.mk (invalidOp a op b) pos none)))
      | _ => .error (.lang (VError.mk (invalidOp a op b) pos none))
    else .error (.lang (VError.mk (invalidOp a op b) pos none))
  else .error (.lang (VError.mk (invalidOp a op b) pos none))

/-- The `Binary` branch of `type_expression` (visitor.rs lines 2081-2255),
as a function of the two operand type nodes, the operator and the
expression position, exactly as the source matches on
`(type(left).node, op, type(right).node)`. -/
def binaryType (a : TypeNode) (op : Operator) (b : TypeNode) (pos : Pos) :
    Except RunErr Ty :=
  match op with
  | .Add | .Sub | .Mul | .Div | .Mod => arithCase a op b pos
  | .Pow =>
    (match a with
     | .float | .int =>
       (match b with
        | .float | .int => pure (tyFrom a)
        | _ => .error (.lang (VError.mk (invalidOp a op b) pos none)))
     | _ => .error (.lang (VError.mk (invalidOp a op b) pos none)))
  | .And | .Or =>
    if tnEq a b && tnEq a .bool then pure (tyFrom .bool)
    else .error (.lang (VError.mk (invalidOp a op b) pos none))
  | .PipeLeft =>
    (match a with
     | .func _ ret _ => pure ret
     | _ => .error (.lang (VError.mk (pipeErr a op b) pos none)))
  | .PipeRight =>
    (match b with
     | .func _ ret _ => pure ret
     | _ => .error (.lang (VError.mk (pipeErr a op b) pos none)))
  | .Concat =>
    if tnEq a .str then
      (match b with
       | .func _ _ _ | .array _ _ =>
         .error (.lang (VError.mk (invalidOp a op b) pos none))
       | _ => pure (tyFrom .str))
    else .error (.lang (VError.mk (invalidOp a op b) pos none))
  | .Eq | .Lt | .Gt | .NEq | .LtEq | .GtEq =>
    if tnEq a b then pure (tyFrom .bool)
    else .error (.lang (VError.mk (invalidOp a op b) pos none))

/-- `Visitor::assert_types` (visitor.rs lines 2716-2726). -/
def assertTypes (a b : Ty) (pos : Pos) : Except RunErr Bool :=
  if !(tyEq a b) then
    .error (.lang (VError.mk
      ("mismatched types, expected `" ++ displayTy a ++ "` got `" ++ displayTy b ++ "`")
      pos none))
  else pure true

/-- The `Self`-inside-`Implement` early return of `type_expression`'s
`Identifier` arm (visitor.rs lines 1754-1761). -/
def selfImplementTarget (st : Visitor) (n : ExpressionNode) : Option Ty :=
  match n with
  | .identifier name => if name == "Self" then findImplement st.inside else none
  | _ => none

/-- The `StatementNode` fragment the verified claims exercise:
`Expression`, `Variable` and `Assignment`. -/
inductive StatementNode where
  | expression (e : Expression)
  | variableDecl (kind : Ty) (name : String) (right : Option Expression) (isPublic : Bool)
  | assignment (left : Expression) (right : Expression)

/-- A statement node together with its source position. -/
structure Statement where
  node : StatementNode
  pos : Pos

mutual
/-- `Visitor::visit_expression` (visitor.rs lines 809-1639) restricted to
the embedded expression fragment: `Identifier`, `Binary`, `Array`, `Call`
and `Index` have dedicated arms; every other embedded constructor is a
literal and falls to the source's final `_ => Ok(())` arm.  The `fuel`
argument is the embedding's recursion budget (the source recurses on the
tree directly). -/
def visitExpression (fuel : Nat) (st : Visitor) (e : Expression) :
    Except RunErr Visitor :=
  if fuel = 0 then .error .fuelOut else
  match e.node with
  | .identifier name =>
    if name == "Self" && hasImplement st.inside then pure st
    else
      let st1 :=
        match lookupStr st.foreignMods name with
        | some content => st.pushInside (.ForeignModule content)
        | none => st
      (match framesFetch st1.frames name with
       | some _ => pure st1
       | none =>
         .error (.lang (VError.mk ("can't seem to find `" ++ name ++ "`") e.pos none)))
  | .binary left _ right => do
    let st1 ← visitExpression (fuel - 1) st left
    visitExpression (fuel - 1) st1 right
  | .array content =>
    (match content with
     | [] => pure st
     | first :: _ => do
       let (t, st1) ← typeExpression (fuel - 1) st first
       visitArrayElems (fuel - 1) st1 t content)
  | .call callee args => do
    let st1 ← visitExpression (fuel - 1) st callee
    let st2 := st1.pushInside (.Calling callee.pos)
    let (expressionType, st3) ← typeExpression (fuel - 1) st2 callee
    (match expressionType.node with
     | .func params _ isMethod => do
       let st4 := if isMethod then st3.addMethodCall callee.pos else st3
       let (actualLen, st5) ←
         callArgsLoop (fuel - 1) st4 params 0 args args e.pos none args.length
       let st6 ←
         if actualLen > params.length then do
           (match params.getLast? with
            | none => .error (.panicked "params.last() on empty params")
            | some lastParam => do
              let lastD ← deid lastParam
              let st' ←
                (match lastD.mode with
                 | .splat _ => splatExtras (fuel - 1) st5 lastD (args.drop params.length)
                 | _ => pure st5)
              pure (st'.pushInside (.Splat (some (actualLen - params.length)))))
         else pure st5
       let st7 ← visitExpression (fuel - 1) st6 callee
       let st8 := st7.popInside
       if actualLen ≠ params.length then
         (match params.getLast? with
          | none => .error (.panicked "params.last() on empty params")
          | some lastParam =>
            (match lastParam.mode with
             | .splat _ => pure st8
             | _ =>
               let finalPos :=
                 match args.getLast? with
                 | some lastArg => lastArg.pos
                 | none => e.pos
               .error (.lang (VError.mk
                 ("expected " ++ toString params.length ++ " argument" ++
                  (if params.length > 1 then "s" else "") ++ " got " ++ toString actualLen)
                 finalPos none))))
       else pure st8
     | _ => pure st3)
  | .index left idx => do
    let (leftType0, stL) ← typeExpression (fuel - 1) st left
    let leftType :=
      match leftType0.mode with
      | .splat _ => tyFrom (.array (tyFrom leftType0.node) none)
      | _ => leftType0
    (match leftType.node with
     | .array _ len => do
       let st1 := stL.pushInside .Nothing
       let st2 ← visitExpression (fuel - 1) st1 idx
       let (idxType, st3) ← typeExpression (fuel - 1) st2 idx
       (match idxType.node with
        | .int =>
          (match (fold_expression idx).node with
           | .int a =>
             (match len with
              | some l =>
                if a > l then
                  .error (.lang (VError.mk
                    ("index out of bounds, len is " ++ toString l ++ " got " ++ toString a)
                    left.pos none))
                else pure st3
              | none => pure st3)
           | _ => pure st3)
        | _ =>
          .error (.lang (VError.mk
            ("can't index with `" ++ displayTy idxType ++ "`, must be `int`")
            left.pos none)))
     | .module content isForeign =>
       let st1 := stL.pushInside .Nothing
       let st2 := if isForeign then st1.pushInside (.ForeignModule content) else st1
       (match idx.node with
        | .identifier name =>
          if !(lookupTy content name).isSome then
            .error (.lang (VError.mk ("no such module member `" ++ name ++ "`") idx.pos none))
          else pure (if isForeign then st2.popInside else st2)
        | _ => do
          let (idxType, _) ← typeExpression (fuel - 1) st2 idx
          .error (.lang (VError.mk ("can't index module with `" ++ displayTy idxType ++ "`") idx.pos none)))
     | .struct _ content sid =>
       let st1 := stL.pushInside (.Implement leftType)
       (match idx.node with
        | .identifier name =>
          if !(lookupTy content name).isSome && !(isImplemented st1 sid name) then
            .error (.lang (VError.mk ("no such struct member `" ++ name ++ "`") idx.pos none))
          else pure st1
        | _ => do
          let (idxType, _) ← typeExpression (fuel - 1) st1 idx
          .error (.lang (VError.mk ("can't index struct with `" ++ displayTy idxType ++ "`") idx.pos none)))
     | .trait _ content =>
       (match idx.node with
        | .identifier name =>
          if !(lookupTy content name).isSome then
            .error (.lang (VError.mk ("no such trait member `" ++ name ++ "`") idx.pos none))
          else pure stL
        | _ => do
          let (idxType, _) ← typeExpression (fuel - 1) stL idx
          .error (.lang (VError.mk ("can't index trait with `" ++ displayTy idxType ++ "`") idx.pos none)))
     | .any => pure stL
     | _ =>
       .error (.lang (VError.mk ("can't index type `" ++ displayTy leftType ++ "`") left.pos none)))
  | _ => pure st

/-- The parameter loop of the `Call` arm (visitor.rs lines 1296-1358):
positional parameter/argument checking with the literal fast path, the
in-loop argument-count error, and the `Unwrap` bookkeeping that grows the
effective argument count. -/
def callArgsLoop (fuel : Nat) (st : Visitor) (params : List Ty) (i : Nat)
    (args allArgs : List Expression) (callPos : Pos) (buffer : Option Ty)
    (actual : Nat) : Except RunErr (Nat × Visitor) :=
  if fuel = 0 then .error .fuelOut else
  match params with
  | [] => pure (actual, st)
  | p :: ps => do
    let paramType ← deid p
    (match allArgs[i]? with
     | none =>
       let lastArgPos :=
         match allArgs.getLast? with
         | some arg => Pos.mk arg.pos.fst (arg.pos.snd.snd + 1, arg.pos.snd.snd + 1)
         | none => Pos.mk callPos.fst (callPos.snd.snd, callPos.snd.snd)
       .error (.lang (VError.mk
         ("mismatched argument count, expected `" ++ toString i ++ "` got " ++
          toString allArgs.length)
         lastArgPos none))
     | some arg => do
       let st1 ← visitExpression (fuel - 1) st arg
       let (argType, st2) ← typeExpression (fuel - 1) st1 arg
       if !(checkExpression paramType.node (fold_expression arg).node) &&
          !(tnEq argType.node paramType.node) then
         .error (.lang (VError.mk
           ("mismatched types, expected type `" ++ displayTypeNode paramType.node ++
            "` got `" ++ displayTy argType ++ "`")
           arg.pos none))
       else do
         let (argType2, st3) ←
           if i < allArgs.length then do
             let st' ← visitExpression (fuel - 1) st2 arg
             typeExpression (fuel - 1) st' arg
           else
             (match buffer with
              | some t => pure (t, st2)
              | none => .error (.panicked "type_buffer unwrap"))
         let next :=
           match argType2.mode with
           | .unwrap len => (some argType2, actual + len)
           | _ => (buffer, actual)
         callArgsLoop (fuel - 1) st3 ps (i + 1) args allArgs callPos next.1 next.2)

/-- The splat-extras loop of the `Call` arm (visitor.rs lines 1364-1380):
each argument beyond the fixed parameters must match the trailing splat
parameter. -/
def splatExtras (fuel : Nat) (st : Visitor) (lastParam : Ty)
    (extras : List Expression) : Except RunErr Visitor :=
  if fuel = 0 then .error .fuelOut else
  match extras with
  | [] => pure st
  | sp :: rest => do
    let st1 ← visitExpression (fuel - 1) st sp
    let (spType, st2) ← typeExpression (fuel - 1) st1 sp
    if !(checkExpression lastParam.node sp.node) &&
       !(tnEq lastParam.node spType.node) then
      .error (.lang (VError.mk
        ("mismatched splat argument, expected `" ++ displayTy lastParam ++
         "` got `" ++ displayTy spType ++ "`")
        sp.pos none))
    else splatExtras (fuel - 1) st2 lastParam rest

/-- The element loop of `visit_expression`'s `Array` arm (visitor.rs lines
1208-1235): every element (the first included) must pass the literal fast
path or match the first element's type leniently. -/
def visitArrayElems (fuel : Nat) (st : Visitor) (t : Ty)
    (es : List Expression) : Except RunErr Visitor :=
  if fuel = 0 then .error .fuelOut else
  match es with
  | [] => pure st
  | el :: rest => do
    let (elType, st1) ← typeExpression (fuel - 1) st el
    if !(checkExpression t.node (fold_expression el).node) &&
       !(tnEq t.node elType.node) then
      .error (.lang (VError.mk
        ("mismatched types in array, expected `" ++ displayTy t ++ "` got `" ++
         displayTy elType ++ "`")
        el.pos none))
    else visitArrayElems (fuel - 1) st1 t rest

/-- `Visitor::type_expression` (visitor.rs lines 1750-2302): the
`Self`-inside-`Implement` early return, then the matched arm's type, then
the final `self.deid(t)`. -/
def typeExpression (fuel : Nat) (st : Visitor) (e : Expression) :
    Except RunErr (Ty × Visitor) :=
  if fuel = 0 then .error .fuelOut else
  match selfImplementTarget st e.node with
  | some s => do
    let r ← deid s
    pure (r, st)
  | none => do
    let (t, st1) ← typeExpressionCore (fuel - 1) st e
    let t2 ← deid t
    pure (t2, st1)

/-- The arm dispatch of `type_expression` before the final `deid`, over the
embedded fragment: `Identifier`, the literals, `Array`, `Index`, `Call` and
`Binary`; the `nil` literal takes the source's `_ => Type::from(Nil)`
catch-all. -/
def typeExpressionCore (fuel : Nat) (st : Visitor) (e : Expression) :
    Except RunErr (Ty × Visitor) :=
  if fuel = 0 then .error .fuelOut else
  match e.node with
  | .identifier name =>
    (match framesFetch st.frames name with
     | none =>
       .error (.lang (VError.mk ("can't seem to find `" ++ name ++ "`") e.pos none))
     | some t => do
       let t1 ← deid t
       pure (t1, st))
  | .str _ => pure (tyFrom .str, st)
  | .char _ => pure (tyFrom .char, st)
  | .bool _ => pure (tyFrom .bool, st)
  | .int _ => pure (tyFrom .int, st)
  | .array content => do
    let (kind, st1) ←
      (match content with
       | [] => pure (tyFrom .any, st)
       | first :: _ => typeExpression (fuel - 1) st first)
    pure (Ty.mk (.array kind (some content.length)) .regular, st1)
  | .index arr idx => do
    let (kind0, st1) ← typeExpression (fuel - 1) st arr
    let kind :=
      match kind0.mode with
      | .splat _ => tyFrom (.array (tyFrom kind0.node) none)
      | _ => kind0
    (match kind.node with
     | .array t _ => pure (t, st1)
     | .any => pure (Ty.mk .any kind.mode, st1)
     | .module content _ =>
       (match idx.node with
        | .identifier name =>
          (match lookupTy content name with
           | some k => pure (k, st1)
           | none =>
             .error (.lang (VError.mk ("no such module member `" ++ name ++ "`") idx.pos none)))
        | _ => .error (.panicked "unreachable: non-identifier module index"))
     | .trait _ content =>
       (match idx.node with
        | .identifier name =>
          (match lookupTy content name with
           | some k => pure (k, st1)
           | none =>
             .error (.lang (VError.mk ("no such trait member `" ++ name ++ "`") idx.pos none)))
        | _ => .error (.panicked "unreachable: non-identifier trait index"))
     | .struct structName content structId =>
       (match idx.node with
        | .identifier name =>
          if !(isImplemented st1 structId name) then
            (match lookupTy content name with
             | some kind2 =>
               if tmStrongCmp kind.mode .undeclared then
                 (if tyIsMethod kind2 then
                    .error (.lang (VError.mk
                      ("can't access non-static method `" ++ name ++ "` on undeclared `" ++
                       structName ++ "`") idx.pos none))
                  else if !(tmStrongCmp kind2.mode .implemented) then
                    .error (.lang (VError.mk
                      ("can't access uninitialized value `" ++ name ++ "` on undeclared `" ++
                       structName ++ "`") idx.pos none))
                  else pure (kind2, st1))
               else pure (kind2, st1)
             | none =>
               .error (.lang (VError.mk ("no such struct member `" ++ name ++ "`") idx.pos none)))
          else
            (match getImplementationForce st1 structId name with
             | some t => pure (t, st1)
             | none => .error (.panicked "get_implementation_force on absent entry"))
        | _ => .error (.panicked "unreachable: non-identifier struct index"))
     | _ =>
       .error (.lang (VError.mk ("can't index type `" ++ displayTy kind ++ "`") e.pos none)))
  | .call callee _ => do
    let (ct, st1) ← typeExpression (fuel - 1) st callee
    (match ct.node with
     | .func _ retty _ => pure (retty, st1)
     | _ => .error (.panicked "BAM! (please submit an issue): called a non-function"))
  | .binary left op right => do
    let (lt, st1) ← typeExpression (fuel - 1) st left
    let (rt, st2) ← typeExpression (fuel - 1) st1 right
    let t ← binaryType lt.node op rt.node e.pos
    pure (t, st2)
  | .nilLit => pure (tyFrom .nil, st)

/-- `Visitor::visit_statement` (visitor.rs lines 419-807) restricted to the
embedded fragment: bare expressions, variable declarations, assignments. -/
def visitStatement (fuel : Nat) (st : Visitor) (s : Statement) :
    Except RunErr Visitor :=
  if fuel = 0 then .error .fuelOut else
  match s.node with
  | .expression e => visitExpression (fuel - 1) st e
  | .variableDecl _ _ _ _ => visitVariable (fuel - 1) st s.node s.pos false
  | .assignment left right => do
    let st1 ← visitExpression (fuel - 1) st left
    let st2 ← visitExpression (fuel - 1) st1 right
    let (a, st3) ← typeExpression (fuel - 1) st2 left
    let (b, st4) ← typeExpression (fuel - 1) st3 right
    let _ ← assertTypes a b left.pos
    pure st4

/-- `Visitor::visit_variable` (visitor.rs lines 1641-1730) over the
embedded fragment.  None of the embedded initializer constructors is in the
source's `Function/Block/If/While/For` or `Struct/Trait` special lists, so
the initializer is simply visited; the `Id`-typed-declaration arm needs the
parser-built payload and aborts instead (no claim constructs one). -/
def visitVariable (fuel : Nat) (st : Visitor) (node : StatementNode)
    (pos : Pos) (isSplat : Bool) : Except RunErr Visitor :=
  if fuel = 0 then .error .fuelOut else
  match node with
  | .variableDecl varType name right _ =>
    if name == "Self" then
      .error (.lang (VError.mk "it's illegal to shadow `Self`" pos none))
    else do
      let varType1 ←
        (match varType.node with
         | .id _ => .error (.panicked "Id-typed declaration payload not modelled")
         | _ => pure varType)
      let variableType := tyFrom varType1.node
      (match right with
       | some r => do
         let st1 ← visitExpression (fuel - 1) st r
         let (rightType0, st2) ← typeExpression (fuel - 1) st1 r
         let rightType := if isSplat then Ty.mk rightType0.node .regular else rightType0
         if !(tnStrongCmp variableType.node .nil) then
           if !(checkExpression variableType.node (fold_expression r).node) &&
              !(tnEq variableType.node rightType.node) then
             .error (.lang (VError.mk
               ("mismatched types, expected type `" ++ displayTypeNode variableType.node ++
                "` got `" ++ displayTypeNode rightType.node ++ "`")
               r.pos none))
           else pure (st2.assign name variableType)
         else pure (st2.assign name rightType)
       | none => pure (st.assign name variableType))
  | _ => .error (.panicked "visit_variable on a non-variable statement")
end

/-- `Visitor::find_module` (visitor.rs lines 2390-2468).  The filesystem is
modelled as a predicate on path strings and the environment as the optional
`WU_HOME` value; the returned list mirrors the insertions into
`self.import_map`.  The source's single `if is_deep_run` test on the OR'd
flag is split into its two disjuncts so the recursion (which always passes
`true`) is visibly bounded. -/
def find_module (fs : String → Bool) (wuHome : Option String)
    (selfIsDeep : Bool) (path root : String) (pos : Pos) (isDeepRun0 : Bool) :
    Except VError (String × List (Pos × (String × String))) :=
  let isDeepRun := isDeepRun0 || selfIsDeep
  let filePath0 := root ++ "/" ++ path ++ ".wu"
  let filePath :=
    if filePath0.take 1 == "/" && !isDeepRun then "." ++ filePath0 else filePath0
  let initPath := root ++ "/" ++ path ++ "/init.wu"
  if fs filePath then pure (filePath, [])
  else if fs initPath then pure (initPath, [])
  else if isDeepRun0 then
    .error (VError.mk
      ("no such module `" ++ path ++ "`, needed either `" ++ path ++
       ".wu`, `" ++ path ++ "/init.wu` or in `$WU_HOME`")
      pos none)
  else if selfIsDeep then
    .error (VError.mk
      ("no such module `" ++ path ++ "`, needed either `" ++ path ++
       ".wu`, `" ++ path ++ "/init.wu` or in `$WU_HOME`")
      pos none)
  else
    match wuHome with
    | some homeRoot =>
      (match find_module fs wuHome selfIsDeep path (homeRoot.dropRight 1) pos true with
       | .ok (newPath, m) => pure (newPath, m ++ [(pos, (newPath, homeRoot ++ "/"))])
       | .error err => .error err)
    | none =>
      .error (VError.mk
        ("no such module `" ++ path ++ "`, needed either `" ++ path ++
         ".wu` or `" ++ path ++ "/init.wu`")
        pos (some "missing environment variable `WU_HOME`"))
termination_by (if isDeepRun0 then 0 else 1)
decreasing_by
  simp_all

/-- Modes on which the mode equality is reflexive: `Undeclared` and
`Implemented` pairs fall to the catch-all `false` arm. -/
def modeReflOK : TypeMode → Bool
  | .undeclared => false
  | .implemented => false
  | _ => true

/-- Modes on which the mode equality is symmetric: only `Splat` counts
compare asymmetrically. -/
def modeSymOK : TypeMode → Bool
  | .splat _ => false
  | _ => true

/-- Duplicate-free member-map keys (`HashMap` keys are unique; the
association-list embedding must say so explicitly). -/
def keysNodupB : List (String × Ty) → Bool
  | [] => true
  | (k, _) :: rest => !(rest.any (fun q => q.1 == k)) && keysNodupB rest

mutual
/-- All modes nested in a node satisfy `p`, all member maps have distinct
keys, and (when `allowModule = false`) no `Module` node occurs —
`Module`-vs-`Module` has no arm in the lenient equality and compares
`false`, so reflexivity needs the exclusion. -/
def tnOK (p : TypeMode → Bool) (allowModule : Bool) (t : TypeNode) : Bool :=
  match t with
  | .array e _ => tyOK p allowModule e
  | .func ps r _ => tysOK p allowModule ps && tyOK p allowModule r
  | .module c _ => allowModule && keysNodupB c && contentOK p allowModule c
  | .struct _ c _ => keysNodupB c && contentOK p allowModule c
  | .trait _ c => keysNodupB c && contentOK p allowModule c
  | .optional i => tnOK p allowModule i
  | .tuple ts => tysOK p allowModule ts
  | _ => true
termination_by sizeOf t
decreasing_by
  all_goals simp_wf
  all_goals omega

/-- `tnOK` on the node plus `p` on the mode. -/
def tyOK (p : TypeMode → Bool) (allowModule : Bool) (t : Ty) : Bool :=
  match t with
  | .mk n m => p m && tnOK p allowModule n
termination_by sizeOf t
decreasing_by
  all_goals simp_wf
  all_goals omega

/-- `tyOK` over a type list. -/
def tysOK (p : TypeMode → Bool) (allowModule : Bool) (l : List Ty) : Bool :=
  match l with
  | [] => true
  | t :: ts => tyOK p allowModule t && tysOK p allowModule ts
termination_by sizeOf l
decreasing_by
  all_goals simp_wf
  all_goals omega

/-- `tyOK` over the values of a member map. -/
def contentOK (p : TypeMode → Bool) (allowModule : Bool) (c : List (String × Ty)) : Bool :=
  match c with
  | [] => true
  | (_, v) :: rest => tyOK p allowModule v && contentOK p allowModule rest
termination_by sizeOf c
decreasing_by
  all_goals simp_wf
  all_goals omega
end

/-- `HashMap::remove` on the association-list embedding: drop every binding
of the key (a well-formed map holds at most one). -/
def eraseKey (k : String) : List (String × Ty) → List (String × Ty)
  | [] => []
  | (k2, v) :: rest => if k2 == k then eraseKey k rest else (k2, v) :: eraseKey k rest

/-- Shorthand for the `int` type with `Regular` mode. -/
def tyInt : Ty := tyFrom .int

/-- Positions used by the concrete scenarios below. -/
def posF : Pos := Pos.mk 1 (0, 1)

/-- Position of the first argument in the call scenarios. -/
def posA1 : Pos := Pos.mk 2 (3, 4)

/-- Position of the second argument in the call scenarios. -/
def posA2 : Pos := Pos.mk 3 (6, 9)

/-- Position of the whole call expression. -/
def posC : Pos := Pos.mk 4 (0, 10)

/-- Position of the indexed expression. -/
def posL : Pos := Pos.mk 5 (0, 1)

/-- Position of the index expression. -/
def posI : Pos := Pos.mk 6 (2, 3)

/-- Position of the whole index expression. -/
def posX : Pos := Pos.mk 7 (0, 4)

/-- Position of the declaration statements. -/
def posD : Pos := Pos.mk 8 (0, 9)

/-- Position of the `nil` initializer. -/
def posN : Pos := Pos.mk 9 (8, 9)

/-- A visitor state with one empty scope frame. -/
def emptyState : Visitor := Visitor.mk [[]] [] [] [] []

/-- Call scenario state: `f : fun(int, int) -> int` in scope. -/
def c4State : Visitor :=
  Visitor.mk [[("f", tyFrom (.func [tyInt, tyInt] tyInt false))]] [] [] [] []

/-- `f(1, 2)`. -/
def c4Call12 : Expression :=
  Expression.mk
    (.call (Expression.mk (.identifier "f") posF)
      [Expression.mk (.int 1) posA1, Expression.mk (.int 2) posA2]) posC

/-- `f(1)`. -/
def c4Call1 : Expression :=
  Expression.mk
    (.call (Expression.mk (.identifier "f") posF)
      [Expression.mk (.int 1) posA1]) posC

/-- `f(1, "x")`. -/
def c4Call1x : Expression :=
  Expression.mk
    (.call (Expression.mk (.identifier "f") posF)
      [Expression.mk (.int 1) posA1, Expression.mk (.str "x") posA2]) posC

/-- The array literal `[1, 2, 3]`. -/
def c6ArrayLit : Expression :=
  Expression.mk
    (.array [Expression.mk (.int 1) posA1, Expression.mk (.int 2) posA2,
      Expression.mk (.int 3) posC]) posL

/-- Index scenario state: `a : [int; 3]` in scope. -/
def c6State : Visitor :=
  Visitor.mk [[("a", tyFrom (.array tyInt (some 3)))]] [] [] [] []

/-- `a[5]`. -/
def c6Index5 : Expression :=
  Expression.mk
    (.index (Expression.mk (.identifier "a") posL) (Expression.mk (.int 5) posI)) posX

/-- `a["i"]` (a non-`int` index). -/
def c6IndexStr : Expression :=
  Expression.mk
    (.index (Expression.mk (.identifier "a") posL) (Expression.mk (.str "i") posI)) posX

/-- The `int?` type with `Regular` mode. -/
def optIntTy : Ty := tyFrom (.optional .int)

/-- `x: int? = nil`. -/
def c7DeclOk : Statement :=
  Statement.mk (.variableDecl optIntTy "x" (some (Expression.mk .nilLit posN)) false) posD

/-- `x: int = nil`. -/
def c7DeclBad : Statement :=
  Statement.mk (.variableDecl tyInt "x" (some (Expression.mk .nilLit posN)) false) posD

/-- The state after the successful declaration: `x : int?`. -/
def c7StateAfter : Visitor := Visitor.mk [[("x", optIntTy)]] [] [] [] []

/-- `x = 5`. -/
def c7Assign : Statement :=
  Statement.mk
    (.assignment (Expression.mk (.identifier "x") posL) (Expression.mk (.int 5) posI)) posD

/-- Bounds-check scenario state: `a : [int; n]` in scope. -/
def c9State (n : Nat) : Visitor :=
  Visitor.mk [[("a", tyFrom (.array tyInt (some n)))]] [] [] [] []

/-- `a[a0]` for a literal index `a0`. -/
def c9Index (a0 : Nat) : Expression :=
  Expression.mk
    (.index (Expression.mk (.identifier "a") posL) (Expression.mk (.int a0) posI)) posX

theorem sizeOf_TypeNode_pos (t : TypeNode) : 0 < sizeOf t := by
  cases t <;> simp

theorem sizeOf_Ty_pos (t : Ty) : 0 < sizeOf t := by
  cases t
  simp

theorem tnEq_any_left (b : TypeNode) : tnEq .any b = true := by
  simp [tnEq]

theorem tnEq_any_right (b : TypeNode) : tnEq b .any = true := by
  cases b <;> simp [tnEq]

theorem tnEq_optional_left (x b : TypeNode) : tnEq (.optional x) b = true := by
  cases b <;> simp [tnEq, tnEq_any_right]

theorem tnEq_optional_right (x b : TypeNode) : tnEq b (.optional x) = true := by
  cases b <;> simp [tnEq, tnEq_any_right]

theorem beqSymm {α : Type} [BEq α] [LawfulBEq α] (a b : α) : (a == b) = (b == a) := by
  by_cases h : a = b
  · subst h; rfl
  · rw [beq_eq_false_iff_ne.mpr h, beq_eq_false_iff_ne.mpr (Ne.symm h)]

theorem tmEq_refl (m : TypeMode) (h : modeReflOK m = true) : tmEq m m = true := by
  cases m <;> simp_all [tmEq, modeReflOK, optLe]
  rename_i o
  cases o <;> simp [optLe]

theorem tmEq_symm (m n : TypeMode) (hm : modeSymOK m = true) (hn : modeSymOK n = true) :
    tmEq m n = tmEq n m := by
  cases m <;> cases n <;> simp_all [tmEq, modeSymOK]

theorem hmFind_iff (k : String) (v : Ty) (b : List (String × Ty)) :
    hmFind k v b = true ↔ ∃ w, lookupTy b k = some w ∧ tyEq v w = true := by
  induction b with
  | nil => simp [hmFind, lookupTy]
  | cons p rest ih =>
    obtain ⟨k2, w⟩ := p
    by_cases h : (k2 == k) = true
    · simp [hmFind, lookupTy, h]
    · simp only [Bool.not_eq_true] at h
      simp [hmFind, lookupTy, h, ih]

theorem hmSubset_iff (a b : List (String × Ty)) :
    hmSubset a b = true ↔ ∀ p ∈ a, hmFind p.1 p.2 b = true := by
  induction a with
  | nil => simp [hmSubset]
  | cons p rest ih =>
    obtain ⟨k, v⟩ := p
    simp [hmSubset, ih]

theorem traitFind_iff (k : String) (v : Ty) (sc : List (String × Ty)) :
    traitFind k v sc = true ↔ ∃ w, lookupTy sc k = some w ∧ tnEq v.node w.node = true := by
  induction sc with
  | nil => simp [traitFind, lookupTy]
  | cons p rest ih =>
    obtain ⟨k2, w⟩ := p
    obtain ⟨wn, wm⟩ := w
    by_cases h : (k2 == k) = true
    · simp [traitFind, lookupTy, h, Ty.node]
    · simp only [Bool.not_eq_true] at h
      simp [traitFind, lookupTy, h, ih]

theorem traitStructSub_iff (tc sc : List (String × Ty)) :
    traitStructSub tc sc = true ↔ ∀ p ∈ tc, traitFind p.1 p.2 sc = true := by
  induction tc with
  | nil => simp [traitStructSub]
  | cons p rest ih =>
    obtain ⟨k, v⟩ := p
    simp [traitStructSub, ih]

theorem lookup_nodup_mem (c : List (String × Ty)) (k : String) (v : Ty)
    (hn : keysNodupB c = true) (hm : (k, v) ∈ c) : lookupTy c k = some v := by
  induction c with
  | nil => simp at hm
  | cons p rest ih =>
    obtain ⟨k2, w⟩ := p
    simp [keysNodupB] at hn
    rcases List.mem_cons.mp hm with h1 | h1
    · cases h1
      simp [lookupTy]
    · have hk : ¬ (k2 == k) = true := by
        intro hcon
        have : k2 = k := eq_of_beq hcon
        subst this
        exact absurd (hn.1 k2 v h1 rfl) (by simp)
      simp [lookupTy, hk]
      exact ih hn.2 h1

theorem lookup_mem (c : List (String × Ty)) (k : String) (w : Ty)
    (h : lookupTy c k = some w) : (k, w) ∈ c := by
  induction c with
  | nil => simp [lookupTy] at h
  | cons p rest ih =>
    obtain ⟨k2, v⟩ := p
    by_cases hk : (k2 == k) = true
    · have : k2 = k := eq_of_beq hk
      subst this
      simp [lookupTy] at h
      simp [h]
    · simp only [Bool.not_eq_true] at hk
      simp [lookupTy, hk] at h
      exact List.mem_cons_of_mem _ (ih h)

theorem sizeOf_mem_content (c : List (String × Ty)) (k : String) (v : Ty)
    (h : (k, v) ∈ c) : sizeOf v < sizeOf c := by
  induction c with
  | nil => simp at h
  | cons p rest ih =>
    rcases List.mem_cons.mp h with h1 | h1
    · subst h1
      simp
      omega
    · have := ih h1
      have h2 : (0 : Nat) < sizeOf p := by
        obtain ⟨x, y⟩ := p
        simp
      simp
      omega

theorem sizeOf_mem_tyList (l : List Ty) (t : Ty) (h : t ∈ l) : sizeOf t < sizeOf l := by
  induction l with
  | nil => simp at h
  | cons x rest ih =>
    rcases List.mem_cons.mp h with h1 | h1
    · subst h1
      simp
      omega
    · have := ih h1
      have h2 := sizeOf_Ty_pos x
      simp
      omega

theorem contentOK_mem (p : TypeMode → Bool) (am : Bool) (c : List (String × Ty))
    (k : String) (v : Ty) (hok : contentOK p am c = true) (h : (k, v) ∈ c) :
    tyOK p am v = true := by
  induction c with
  | nil => simp at h
  | cons q rest ih =>
    obtain ⟨k2, w⟩ := q
    simp [contentOK] at hok
    rcases List.mem_cons.mp h with h1 | h1
    · cases h1
      exact hok.1
    · exact ih hok.2 h1

theorem sizeOf_TyList_pos (l : List Ty) : 0 < sizeOf l := by
  cases l <;> simp

theorem sizeOf_content_pos (c : List (String × Ty)) : 0 < sizeOf c := by
  cases c <;> simp

theorem reflAux (N : Nat) :
    (∀ a : TypeNode, sizeOf a ≤ N → tnOK modeReflOK false a = true → tnEq a a = true) ∧
    (∀ t : Ty, sizeOf t ≤ N → tyOK modeReflOK false t = true → tyEq t t = true) ∧
    (∀ l : List Ty, sizeOf l ≤ N → tysOK modeReflOK false l = true → tyListEq l l = true) ∧
    (∀ c : List (String × Ty), sizeOf c ≤ N → keysNodupB c = true →
      contentOK modeReflOK false c = true → hmEq c c = true) := by
  induction N with
  | zero =>
    refine ⟨?_, ?_, ?_, ?_⟩
    · intro a ha _
      have := sizeOf_TypeNode_pos a
      omega
    · intro t ht _
      have := sizeOf_Ty_pos t
      omega
    · intro l hl _
      have := sizeOf_TyList_pos l
      omega
    · intro c hc _ _
      have := sizeOf_content_pos c
      omega
  | succ n ih =>
    obtain ⟨ihN, ihT, ihL, ihC⟩ := ih
    refine ⟨?_, ?_, ?_, ?_⟩
    · intro a ha hok
      cases a with
      | int => simp [tnEq, tnEqRest]
      | float => simp [tnEq, tnEqRest]
      | bool => simp [tnEq, tnEqRest]
      | str => simp [tnEq, tnEqRest]
      | any => simp [tnEq]
      | char => simp [tnEq, tnEqRest]
      | nil => simp [tnEq, tnEqRest]
      | this => simp [tnEq, tnEqRest]
      | id tok => simp [tnEq, tnEqRest]
      | optional i => simp [tnEq_optional_left]
      | array e len =>
        have he : tyOK modeReflOK false e = true := by
          simpa [tnOK] using hok
        have hs : sizeOf e ≤ n := by
          simp at ha
          omega
        simp [tnEq, tnEqRest, ihT e hs he]
      | func ps r m =>
        have hok2 : tysOK modeReflOK false ps = true ∧ tyOK modeReflOK false r = true := by
          simpa [tnOK] using hok
        have hs : sizeOf ps ≤ n ∧ sizeOf r ≤ n := by
          simp at ha
          omega
        simp [tnEq, tnEqRest, ihL ps hs.1 hok2.1, ihT r hs.2 hok2.2]
      | module c f =>
        simp [tnOK] at hok
      | struct nm c sid => simp [tnEq, tnEqRest]
      | trait nm c =>
        have hok2 : keysNodupB c = true ∧ contentOK modeReflOK false c = true := by
          simpa [tnOK] using hok
        have hs : sizeOf c ≤ n := by
          simp at ha
          omega
        simp [tnEq, tnEqRest, ihC c hs hok2.1 hok2.2]
      | tuple ts =>
        have hok2 : tysOK modeReflOK false ts = true := by
          simpa [tnOK] using hok
        have hs : sizeOf ts ≤ n := by
          simp at ha
          omega
        simp [tnEq, tnEqRest, ihL ts hs hok2]
    · intro t ht hok
      obtain ⟨nn, mm⟩ := t
      have hok2 : modeReflOK mm = true ∧ tnOK modeReflOK false nn = true := by
        simpa [tyOK] using hok
      have hs : sizeOf nn ≤ n := by
        simp at ht
        omega
      simp [tyEq, ihN nn hs hok2.2, tmEq_refl mm hok2.1]
    · intro l hl hok
      cases l with
      | nil => simp [tyListEq]
      | cons t ts =>
        have hok2 : tyOK modeReflOK false t = true ∧ tysOK modeReflOK false ts = true := by
          simpa [tysOK] using hok
        have hs : sizeOf t ≤ n ∧ sizeOf ts ≤ n := by
          simp at hl
          omega
        simp [tyListEq, ihT t hs.1 hok2.1, ihL ts hs.2 hok2.2]
    · intro c hc hn hok
      have hsub : hmSubset c c = true := by
        rw [hmSubset_iff]
        intro p hp
        obtain ⟨k, v⟩ := p
        rw [hmFind_iff]
        refine ⟨v, lookup_nodup_mem c k v hn hp, ?_⟩
        have hlt := sizeOf_mem_content c k v hp
        exact ihT v (by omega) (contentOK_mem _ _ c k v hok hp)
      simp [hmEq, hsub]

theorem tnEq_refl (a : TypeNode) (h : tnOK modeReflOK false a = true) : tnEq a a = true :=
  (reflAux (sizeOf a)).1 a (Nat.le_refl _) h

theorem keysNodupB_nodup (c : List (String × Ty)) (h : keysNodupB c = true) :
    (c.map Prod.fst).Nodup := by
  induction c with
  | nil => simp
  | cons p rest ih =>
    obtain ⟨k, v⟩ := p
    simp only [keysNodupB, Bool.and_eq_true, Bool.not_eq_true'] at h
    simp only [List.map_cons, List.nodup_cons]
    constructor
    · intro hk
      rcases List.mem_map.mp hk with ⟨⟨k2, w⟩, hw, hf⟩
      have h2 := List.any_eq_false.mp h.1 _ hw
      simp at h2 hf
      exact h2 (by rw [hf])
    · exact ih h.2

theorem symmAux (N : Nat) :
    (∀ a b : TypeNode, sizeOf a + sizeOf b ≤ N →
      tnOK modeSymOK true a = true → tnOK modeSymOK true b = true →
      tnEq a b = tnEq b a) ∧
    (∀ s t : Ty, sizeOf s + sizeOf t ≤ N →
      tyOK modeSymOK true s = true → tyOK modeSymOK true t = true →
      tyEq s t = tyEq t s) ∧
    (∀ l m : List Ty, sizeOf l + sizeOf m ≤ N →
      tysOK modeSymOK true l = true → tysOK modeSymOK true m = true →
      tyListEq l m = tyListEq m l) ∧
    (∀ c d : List (String × Ty), sizeOf c + sizeOf d ≤ N →
      keysNodupB c = true → keysNodupB d = true →
      contentOK modeSymOK true c = true → contentOK modeSymOK true d = true →
      hmEq c d = true → hmEq d c = true) := by
  induction N with
  | zero =>
    refine ⟨?_, ?_, ?_, ?_⟩
    · intro a b hab _ _
      have := sizeOf_TypeNode_pos a
      have := sizeOf_TypeNode_pos b
      omega
    · intro s t hst _ _
      have := sizeOf_Ty_pos s
      have := sizeOf_Ty_pos t
      omega
    · intro l m hlm _ _
      have := sizeOf_TyList_pos l
      have := sizeOf_TyList_pos m
      omega
    · intro c d hcd _ _ _ _ _
      have := sizeOf_content_pos c
      have := sizeOf_content_pos d
      omega
  | succ n ih =>
    obtain ⟨ihN, ihT, ihL, ihC⟩ := ih
    have hmSym : ∀ c d : List (String × Ty), sizeOf c + sizeOf d ≤ n + 1 →
        keysNodupB c = true → keysNodupB d = true →
        contentOK modeSymOK true c = true → contentOK modeSymOK true d = true →
        hmEq c d = true → hmEq d c = true := by
      intro c d hs hnc hnd hoc hod h
      simp only [hmEq, Bool.and_eq_true, beq_iff_eq] at h
      obtain ⟨hlen, hsub⟩ := h
      rw [hmSubset_iff] at hsub
      have hkeysub : (c.map Prod.fst) ⊆ (d.map Prod.fst) := by
        intro k hk
        rcases List.mem_map.mp hk with ⟨⟨k0, v⟩, hpv, hf⟩
        have hfind := hsub _ hpv
        rw [hmFind_iff] at hfind
        obtain ⟨w, hw, _⟩ := hfind
        have hmem := lookup_mem d k0 w hw
        cases hf
        exact List.mem_map.mpr ⟨(k0, w), hmem, rfl⟩
      have hnodc := keysNodupB_nodup c hnc
      have hnodd := keysNodupB_nodup d hnd
      have hsp := List.subperm_of_subset hnodc hkeysub
      have hperm := hsp.perm_of_length_le (by simp [hlen])
      simp only [hmEq, Bool.and_eq_true, beq_iff_eq]
      refine ⟨hlen.symm, ?_⟩
      rw [hmSubset_iff]
      intro p hp
      obtain ⟨k, w⟩ := p
      rw [hmFind_iff]
      have hkd : k ∈ d.map Prod.fst := List.mem_map.mpr ⟨(k, w), hp, rfl⟩
      have hkc : k ∈ c.map Prod.fst := hperm.mem_iff.mpr hkd
      rcases List.mem_map.mp hkc with ⟨⟨k0, v⟩, hv, hf⟩
      simp at hf
      have hv2 : (k, v) ∈ c := by
        rw [← hf]
        exact hv
      have hlookc : lookupTy c k = some v := lookup_nodup_mem c k v hnc hv2
      have hfind := hsub _ hv2
      rw [hmFind_iff] at hfind
      obtain ⟨w2, hw2, hvw2⟩ := hfind
      have hlookd : lookupTy d k = some w := lookup_nodup_mem d k w hnd hp
      rw [hlookd] at hw2
      have hww : w2 = w := by
        cases hw2
        rfl
      subst hww
      have hszv := sizeOf_mem_content c k v hv2
      have hszw := sizeOf_mem_content d k w2 hp
      have hsymm := ihT v w2 (by omega)
        (contentOK_mem _ _ c k v hoc hv2) (contentOK_mem _ _ d k w2 hod hp)
      exact ⟨v, hlookc, by rw [← hsymm]; exact hvw2⟩
    refine ⟨?_, ?_, ?_, hmSym⟩
    · intro a b hs hoa hob
      cases a with
      | any => simp [tnEq_any_left, tnEq_any_right]
      | optional i => simp [tnEq_optional_left, tnEq_optional_right]
      | int =>
        cases b <;>
          simp [tnEq, tnEqRest, tnEq_any_left, tnEq_any_right,
            tnEq_optional_left, tnEq_optional_right]
      | float =>
        cases b <;>
          simp [tnEq, tnEqRest, tnEq_any_left, tnEq_any_right,
            tnEq_optional_left, tnEq_optional_right]
      | bool =>
        cases b <;>
          simp [tnEq, tnEqRest, tnEq_any_left, tnEq_any_right,
            tnEq_optional_left, tnEq_optional_right]
      | str =>
        cases b <;>
          simp [tnEq, tnEqRest, tnEq_any_left, tnEq_any_right,
            tnEq_optional_left, tnEq_optional_right]
      | char =>
        cases b <;>
          simp [tnEq, tnEqRest, tnEq_any_left, tnEq_any_right,
            tnEq_optional_left, tnEq_optional_right]
      | nil =>
        cases b <;>
          simp [tnEq, tnEqRest, tnEq_any_left, tnEq_any_right,
            tnEq_optional_left, tnEq_optional_right]
      | this =>
        cases b <;>
          simp [tnEq, tnEqRest, tnEq_any_left, tnEq_any_right,
            tnEq_optional_left, tnEq_optional_right]
      | id x =>
        cases b <;>
          simp [tnEq, tnEqRest, tnEq_any_left, tnEq_any_right,
            tnEq_optional_left, tnEq_optional_right, beqSymm x]
      | module c f =>
        cases b <;>
          simp [tnEq, tnEqRest, tnEq_any_left, tnEq_any_right,
            tnEq_optional_left, tnEq_optional_right]
      | tuple ts =>
        cases b <;>
          first
          | (simp [tnEq, tnEqRest, tnEq_any_left, tnEq_any_right,
              tnEq_optional_left, tnEq_optional_right]
             done)
          | (rename_i us
             have hoa2 : tysOK modeSymOK true ts = true := by simpa [tnOK] using hoa
             have hob2 : tysOK modeSymOK true us = true := by simpa [tnOK] using hob
             have hsz : sizeOf ts + sizeOf us ≤ n := by
               simp at hs
               omega
             simp only [tnEq, tnEqRest, Bool.false_or]
             exact ihL ts us hsz hoa2 hob2)
      | array e la =>
        cases b <;>
          first
          | (simp [tnEq, tnEqRest, tnEq_any_left, tnEq_any_right,
              tnEq_optional_left, tnEq_optional_right]
             done)
          | (rename_i y lb
             have hoa2 : tyOK modeSymOK true e = true := by simpa [tnOK] using hoa
             have hob2 : tyOK modeSymOK true y = true := by simpa [tnOK] using hob
             have hsz : sizeOf e + sizeOf y ≤ n := by
               simp at hs
               omega
             have h1 := ihT e y hsz hoa2 hob2
             simp only [tnEq, tnEqRest, Bool.false_or]
             rw [h1, beqSymm la lb]
             simp only [tnEq_any_right, Bool.true_and]
             cases la <;> cases lb <;>
               simp [Bool.or_comm, Bool.or_left_comm, Bool.or_assoc])
      | func ps r m =>
        cases b <;>
          first
          | (simp [tnEq, tnEqRest, tnEq_any_left, tnEq_any_right,
              tnEq_optional_left, tnEq_optional_right]
             done)
          | (rename_i qs s m2
             have hoa2 : tysOK modeSymOK true ps = true ∧ tyOK modeSymOK true r = true := by
               simpa [tnOK] using hoa
             have hob2 : tysOK modeSymOK true qs = true ∧ tyOK modeSymOK true s = true := by
               simpa [tnOK] using hob
             have hsz : sizeOf ps + sizeOf qs ≤ n ∧ sizeOf r + sizeOf s ≤ n := by
               simp at hs
               omega
             simp only [tnEq, tnEqRest, Bool.false_or]
             rw [ihL ps qs hsz.1 hoa2.1 hob2.1, ihT r s hsz.2 hoa2.2 hob2.2,
               beqSymm m m2])
      | struct nm c sid =>
        cases b <;>
          first
          | (simp [tnEq, tnEqRest, tnEq_any_left, tnEq_any_right,
              tnEq_optional_left, tnEq_optional_right]
             done)
          | (rename_i nb cb sidb
             simp only [tnEq, tnEqRest, Bool.false_or]
             rw [beqSymm nm nb, beqSymm sid sidb])
      | trait nm c =>
        cases b <;>
          first
          | (simp [tnEq, tnEqRest, tnEq_any_left, tnEq_any_right,
              tnEq_optional_left, tnEq_optional_right]
             done)
          | (simp only [tnEq, tnEqRest, Bool.false_or]
             done)
          | (rename_i nb cb
             have hoa2 : keysNodupB c = true ∧ contentOK modeSymOK true c = true := by
               simpa [tnOK] using hoa
             have hob2 : keysNodupB cb = true ∧ contentOK modeSymOK true cb = true := by
               simpa [tnOK] using hob
             have hsz : sizeOf c + sizeOf cb ≤ n + 1 := by
               simp at hs
               omega
             have hsz2 : sizeOf cb + sizeOf c ≤ n + 1 := by omega
             simp only [tnEq, tnEqRest, Bool.false_or]
             have h1 := hmSym c cb hsz hoa2.1 hob2.1 hoa2.2 hob2.2
             have h2 := hmSym cb c hsz2 hob2.1 hoa2.1 hob2.2 hoa2.2
             cases hcd : hmEq c cb with
             | true => exact (h1 hcd).symm
             | false =>
               cases hdc : hmEq cb c with
               | true => simp [h2 hdc] at hcd
               | false => rfl)
    · intro s t hs hos hot
      obtain ⟨n1, m1⟩ := s
      obtain ⟨n2, m2⟩ := t
      have hos2 : modeSymOK m1 = true ∧ tnOK modeSymOK true n1 = true := by
        simpa [tyOK] using hos
      have hot2 : modeSymOK m2 = true ∧ tnOK modeSymOK true n2 = true := by
        simpa [tyOK] using hot
      have hsz : sizeOf n1 + sizeOf n2 ≤ n := by
        simp at hs
        omega
      simp only [tyEq]
      rw [ihN n1 n2 hsz hos2.2 hot2.2, tmEq_symm m1 m2 hos2.1 hot2.1]
    · intro l m hlm hol hom
      cases l with
      | nil =>
        cases m with
        | nil => rfl
        | cons y ys => simp [tyListEq]
      | cons x xs =>
        cases m with
        | nil => simp [tyListEq]
        | cons y ys =>
          have hol2 : tyOK modeSymOK true x = true ∧ tysOK modeSymOK true xs = true := by
            simpa [tysOK] using hol
          have hom2 : tyOK modeSymOK true y = true ∧ tysOK modeSymOK true ys = true := by
            simpa [tysOK] using hom
          have hsz : sizeOf x + sizeOf y ≤ n ∧ sizeOf xs + sizeOf ys ≤ n := by
            simp at hlm
            omega
          simp only [tyListEq]
          rw [ihT x y hsz.1 hol2.1 hom2.1, ihL xs ys hsz.2 hol2.2 hom2.2]

theorem tnEq_symm (a b : TypeNode) (ha : tnOK modeSymOK true a = true)
    (hb : tnOK modeSymOK true b = true) : tnEq a b = tnEq b a :=
  (symmAux (sizeOf a + sizeOf b)).1 a b (Nat.le_refl _) ha hb

theorem lookup_eraseKey (k : String) (sc : List (String × Ty)) :
    lookupTy (eraseKey k sc) k = none := by
  induction sc with
  | nil => simp [eraseKey, lookupTy]
  | cons p rest ih =>
    obtain ⟨k2, v⟩ := p
    by_cases h : (k2 == k) = true
    · simp [eraseKey, h, ih]
    · simp only [Bool.not_eq_true] at h
      simp [eraseKey, h, lookupTy, ih]

theorem tnEq_trait_struct (nT nS sid : String) (tc sc : List (String × Ty)) :
    tnEq (.trait nT tc) (.struct nS sc sid) = traitStructSub tc sc := by
  simp [tnEq, tnEqRest]

theorem traitStructSub_lookup_iff (tc sc : List (String × Ty)) :
    traitStructSub tc sc = true ↔
      ∀ p ∈ tc, ∃ w, lookupTy sc p.1 = some w ∧ tnEq p.2.node w.node = true := by
  rw [traitStructSub_iff]
  constructor
  · intro h p hp
    exact (traitFind_iff p.1 p.2 sc).mp (h p hp)
  · intro h p hp
    exact (traitFind_iff p.1 p.2 sc).mpr (h p hp)

theorem arithCase_spec (a b : TypeNode) (op : Operator) (pos : Pos) :
    ((a = .int ∧ b = .int) ∨ (a = .float ∧ b = .float) →
      arithCase a op b pos = .ok (tyFrom a)) ∧
    (¬ ((a = .int ∧ b = .int) ∨ (a = .float ∧ b = .float)) →
      arithCase a op b pos = .error (.lang (VError.mk (invalidOp a op b) pos none))) := by
  constructor
  · rintro (⟨rfl, rfl⟩ | ⟨rfl, rfl⟩) <;>
      simp [arithCase, tnEq, tnEqRest, pure, Except.pure]
  · intro h
    cases a <;> cases b <;>
      simp_all [arithCase, tnEq, tnEqRest, tnEq_any_left, tnEq_any_right,
        tnEq_optional_left, tnEq_optional_right]

theorem binaryType_pow_spec (a b : TypeNode) (pos : Pos) :
    ((a = .int ∨ a = .float) ∧ (b = .int ∨ b = .float) →
      binaryType a .Pow b pos = .ok (tyFrom a)) ∧
    (¬ ((a = .int ∨ a = .float) ∧ (b = .int ∨ b = .float)) →
      binaryType a .Pow b pos = .error (.lang (VError.mk (invalidOp a .Pow b) pos none))) := by
  constructor
  · rintro ⟨(rfl | rfl), (rfl | rfl)⟩ <;> simp [binaryType, pure, Except.pure]
  · intro h
    cases a <;> cases b <;> simp_all [binaryType]

/-- C1: the claim as stated fails — the general comparison is not reflexive
on every concrete node pair.  `Module` nodes have no matching arm and
compare unequal to themselves; a node nesting a type with `Undeclared` mode
is unequal to itself; nested `Splat` counts compare by `<=`, breaking
symmetry.  All four inputs contain no `Any` and no `Id`. -/
theorem C1_counterexample :
    tnEq (.module [] false) (.module [] false) = false ∧
    tnEq (.tuple [Ty.mk .int .undeclared]) (.tuple [Ty.mk .int .undeclared]) = false ∧
    tnEq (.tuple [Ty.mk .int (.splat (some 2))]) (.tuple [Ty.mk .int (.splat (some 3))]) = true ∧
    tnEq (.tuple [Ty.mk .int (.splat (some 3))]) (.tuple [Ty.mk .int (.splat (some 2))]) = false := by
  refine ⟨?_, ?_, ?_, ?_⟩ <;> simp [tnEq, tnEqRest, tyListEq, tyEq, tmEq, optLe]

/-- C1 (amended): the structural comparison is reflexive on every node that
contains no `Module` subnode and no `Undeclared`/`Implemented` mode (member
maps duplicate-free), symmetric on every pair additionally carrying no
`Splat` mode, and `Any` and `Optional(Any)` — indeed every `Optional` inner
type — compare equal to every node on both sides. -/
theorem C1_thm :
    (∀ a : TypeNode, tnOK modeReflOK false a = true → tnEq a a = true) ∧
    (∀ a b : TypeNode, tnOK modeSymOK true a = true → tnOK modeSymOK true b = true →
      tnEq a b = tnEq b a) ∧
    (∀ b : TypeNode, tnEq .any b = true ∧ tnEq b .any = true) ∧
    (∀ b : TypeNode, tnEq (.optional .any) b = true ∧ tnEq b (.optional .any) = true) :=
  ⟨tnEq_refl, tnEq_symm,
   fun b => ⟨tnEq_any_left b, tnEq_any_right b⟩,
   fun b => ⟨tnEq_optional_left .any b, tnEq_optional_right .any b⟩⟩

/-- Witness for C1 at concrete inputs. -/
theorem C1_witness :
    tnEq (.tuple [Ty.mk .int .regular]) (.tuple [Ty.mk .int .regular]) = true ∧
    tnEq (.trait "T" [("m", Ty.mk .int .regular)]) (.struct "S" [] "i") =
      tnEq (.struct "S" [] "i") (.trait "T" [("m", Ty.mk .int .regular)]) := by
  constructor
  · exact C1_thm.1 (.tuple [Ty.mk .int .regular])
      (by simp [tnOK, tysOK, tyOK, modeReflOK])
  · exact C1_thm.2.1 (.trait "T" [("m", Ty.mk .int .regular)]) (.struct "S" [] "i")
      (by simp [tnOK, tysOK, tyOK, modeSymOK, keysNodupB, contentOK])
      (by simp [tnOK, tysOK, tyOK, modeSymOK, keysNodupB, contentOK])

/-- C2: a trait is satisfied by a struct exactly when every trait member
name is bound in the struct's member map to an equally-noded type; adding a
member the trait does not name preserves acceptance, removing a named
member destroys it, and the struct-on-left order delegates to the
trait-on-left order. -/
theorem C2_thm (nT nS sid : String) (tc sc : List (String × Ty)) :
    (tnEq (.trait nT tc) (.struct nS sc sid) = true ↔
      ∀ p ∈ tc, ∃ w, lookupTy sc p.1 = some w ∧ tnEq p.2.node w.node = true) ∧
    (tnEq (.struct nS sc sid) (.trait nT tc) = tnEq (.trait nT tc) (.struct nS sc sid)) ∧
    (∀ k2 w, k2 ∉ tc.map Prod.fst →
      tnEq (.trait nT tc) (.struct nS sc sid) = true →
      tnEq (.trait nT tc) (.struct nS ((k2, w) :: sc) sid) = true) ∧
    (∀ k v, (k, v) ∈ tc →
      tnEq (.trait nT tc) (.struct nS (eraseKey k sc) sid) = false) := by
  refine ⟨?_, ?_, ?_, ?_⟩
  · rw [tnEq_trait_struct]
    exact traitStructSub_lookup_iff tc sc
  · rw [tnEq_trait_struct]
    simp [tnEq, tnEqRest]
  · intro k2 w hk h
    rw [tnEq_trait_struct] at h ⊢
    rw [traitStructSub_lookup_iff] at h ⊢
    intro p hp
    obtain ⟨w2, hw2, he⟩ := h p hp
    refine ⟨w2, ?_, he⟩
    have hne : ¬ (k2 == p.1) = true := by
      intro hcon
      exact hk (List.mem_map.mpr ⟨p, hp, (eq_of_beq hcon).symm⟩)
    simp only [Bool.not_eq_true] at hne
    simp [lookupTy, hne, hw2]
  · intro k v hkv
    rw [tnEq_trait_struct]
    by_contra hcon
    simp only [Bool.not_eq_false] at hcon
    rw [traitStructSub_lookup_iff] at hcon
    obtain ⟨w, hw, _⟩ := hcon (k, v) hkv
    rw [lookup_eraseKey] at hw
    cases hw

/-- Witness for C2 at concrete inputs. -/
theorem C2_witness :
    tnEq (.trait "T" [("m", tyInt)]) (.struct "S" ((("x", tyFrom .str)) :: [("m", tyInt)]) "i") = true ∧
    tnEq (.trait "T" [("m", tyInt)]) (.struct "S" (eraseKey "m" [("m", tyInt)]) "i") = false := by
  refine ⟨?_, ?_⟩
  · exact (C2_thm "T" "S" "i" [("m", tyInt)] [("m", tyInt)]).2.2.1 "x" (tyFrom .str)
      (by simp)
      ((C2_thm "T" "S" "i" [("m", tyInt)] [("m", tyInt)]).1.mpr
        (by
          intro p hp
          simp at hp
          subst hp
          exact ⟨tyInt, by simp [lookupTy], by simp [tyInt, tyFrom, Ty.node, tnEq, tnEqRest]⟩))
  · exact (C2_thm "T" "S" "i" [("m", tyInt)] [("m", tyInt)]).2.2.2 "m" tyInt (by simp)

/-- C3: the claim as stated fails — the strict comparison is lenient below
the top level.  A tuple whose element is `Any` strictly matches a tuple
whose element is `Int` although the nodes differ; `Optional(Any)` strictly
matches `Optional(Str)`; an `Array` with no declared length strictly
matches one with length 3. -/
theorem C3_counterexample :
    (tnStrongCmp (.tuple [tyFrom .any]) (.tuple [tyFrom .int]) = true ∧
      TypeNode.tuple [tyFrom .any] ≠ TypeNode.tuple [tyFrom .int]) ∧
    (tnStrongCmp (.optional .any) (.optional .str) = true ∧
      TypeNode.optional .any ≠ TypeNode.optional .str) ∧
    tnStrongCmp (.array (tyFrom .int) none) (.array (tyFrom .int) (some 3)) = true := by
  refine ⟨⟨?_, ?_⟩, ⟨?_, ?_⟩, ?_⟩ <;>
    simp [tnStrongCmp, tyListEq, tyEq, tnEq, tnEqRest, tmEq, tyFrom]

/-- C3 (amended): `strong_cmp` is strict at the top level only — `Any`
matches only `Any`, `Nil` only `Nil`, `Optional` only pairs with
`Optional` — while every nested component (tuple elements, array element
types, function parameters and return) is compared with the lenient
equality, and a `None` left array length matches any right length;
`TypeMode::strong_cmp` compares `Splat` counts exactly and `Unwrap` by
presence, ignoring its count. -/
theorem C3_thm :
    (∀ b, tnStrongCmp .any b = (match b with | .any => true | _ => false)) ∧
    (∀ a, tnStrongCmp a .any = (match a with | .any => true | _ => false)) ∧
    (∀ x b, tnStrongCmp (.optional x) b =
      (match b with | .optional y => tnEq x y | _ => false)) ∧
    (∀ b, tnStrongCmp .nil b = (match b with | .nil => true | _ => false)) ∧
    (∀ xs ys, tnStrongCmp (.tuple xs) (.tuple ys) = tyListEq xs ys) ∧
    (∀ x y la lb, tnStrongCmp (.array x la) (.array y lb) =
      (tyEq x y && (la == none || la == lb))) ∧
    (∀ ps r m qs s m2, tnStrongCmp (.func ps r m) (.func qs s m2) =
      (tyListEq ps qs && tyEq r s && (m == m2))) ∧
    (∀ x y, tmStrongCmp (.splat x) (.splat y) = (x == y)) ∧
    (∀ x y, tmStrongCmp (.unwrap x) (.unwrap y) = true) := by
  refine ⟨?_, ?_, ?_, ?_, ?_, ?_, ?_, ?_, ?_⟩
  · intro b
    cases b <;> simp [tnStrongCmp]
  · intro a
    cases a <;> simp [tnStrongCmp]
  · intro x b
    cases b <;> simp [tnStrongCmp]
  · intro b
    cases b <;> simp [tnStrongCmp]
  · intro xs ys
    simp [tnStrongCmp]
  · intro x y la lb
    simp [tnStrongCmp]
  · intro ps r m qs s m2
    simp [tnStrongCmp]
  · intro x y
    simp [tmStrongCmp]
  · intro x y
    simp [tmStrongCmp]

/-- C5: the claim as stated fails — `**` does not require both operands to
have the same numeric kind: `int ** float` type-checks, with result type
`int`. -/
theorem C5_counterexample :
    binaryType .int .Pow .float (Pos.mk 0 (0, 0)) = .ok (tyFrom .int) := by
  simp [binaryType, pure, Except.pure]

/-- C5 (amended): for `+ - * / %` type-checking succeeds (with the left
operand's type as result) exactly when both operands are `Int` or both are
`Float`, and otherwise fails with the invalid-operation error naming the
operator and both operand types; `**` instead succeeds whenever each
operand is independently `Int` or `Float` (mixing allowed), failing with
the same error shape otherwise. -/
theorem C5_thm (a b : TypeNode) (op : Operator) (pos : Pos) :
    (op = .Add ∨ op = .Sub ∨ op = .Mul ∨ op = .Div ∨ op = .Mod →
      ((binaryType a op b pos = .ok (tyFrom a)) ↔
        ((a = .int ∧ b = .int) ∨ (a = .float ∧ b = .float))) ∧
      (¬ ((a = .int ∧ b = .int) ∨ (a = .float ∧ b = .float)) →
        binaryType a op b pos = .error (.lang (VError.mk (invalidOp a op b) pos none)))) ∧
    ((binaryType a .Pow b pos = .ok (tyFrom a)) ↔
      ((a = .int ∨ a = .float) ∧ (b = .int ∨ b = .float))) ∧
    (¬ ((a = .int ∨ a = .float) ∧ (b = .int ∨ b = .float)) →
      binaryType a .Pow b pos = .error (.lang (VError.mk (invalidOp a .Pow b) pos none))) := by
  have harith : op = .Add ∨ op = .Sub ∨ op = .Mul ∨ op = .Div ∨ op = .Mod →
      binaryType a op b pos = arithCase a op b pos := by
    rintro (rfl | rfl | rfl | rfl | rfl) <;> simp [binaryType]
  refine ⟨?_, ?_, ?_⟩
  · intro hop
    rw [harith hop]
    constructor
    · constructor
      · intro hok
        by_contra hcon
        rw [(arithCase_spec a b op pos).2 hcon] at hok
        cases hok
      · intro hcond
        exact (arithCase_spec a b op pos).1 hcond
    · exact (arithCase_spec a b op pos).2
  · constructor
    · intro hok
      by_contra hcon
      rw [(binaryType_pow_spec a b pos).2 hcon] at hok
      cases hok
    · intro hcond
      exact (binaryType_pow_spec a b pos).1 hcond
  · exact (binaryType_pow_spec a b pos).2

/-- Witness for C5 at concrete inputs. -/
theorem C5_witness :
    binaryType .int .Add .int (Pos.mk 0 (0, 0)) = .ok (tyFrom .int) ∧
    binaryType .int .Add .str (Pos.mk 0 (0, 0)) =
      .error (.lang (VError.mk (invalidOp .int .Add .str) (Pos.mk 0 (0, 0)) none)) := by
  constructor
  · exact ((C5_thm .int .int .Add (Pos.mk 0 (0, 0))).1 (Or.inl rfl)).1.mpr (Or.inl ⟨rfl, rfl⟩)
  · exact ((C5_thm .int .str .Add (Pos.mk 0 (0, 0))).1 (Or.inl rfl)).2 (by simp)

/-- C10: the claim as stated fails — `Undeclared` does compare equal to the
`Optional` qualifier on both sides (that arm precedes the `Undeclared`
arms), and `Unwrap` does not compare equal to `Undeclared`. -/
theorem C10_counterexample :
    tmEq .undeclared .optional = true ∧
    tmEq .optional .undeclared = true ∧
    tmEq (.unwrap 0) .undeclared = false := by
  decide

/-- C10 (amended): the lenient mode equality is not reflexive
(`Undeclared` differs from itself) and not symmetric (`Splat(Some a)`
equals `Splat(Some b)` exactly when `a <= b`); `Optional` compares equal to
every mode on either side; `Undeclared` compares unequal to every mode
except `Optional`, and `Unwrap` compares equal to every mode except
`Undeclared`, on either side. -/
theorem C10_thm :
    tmEq .undeclared .undeclared = false ∧
    (∀ x y : Nat, tmEq (.splat (some x)) (.splat (some y)) = decide (x ≤ y)) ∧
    (∀ m, tmEq m .optional = true ∧ tmEq .optional m = true) ∧
    (∀ m, m ≠ .optional → tmEq .undeclared m = false ∧ tmEq m .undeclared = false) ∧
    (∀ k m, m ≠ .undeclared → tmEq (.unwrap k) m = true ∧ tmEq m (.unwrap k) = true) := by
  refine ⟨by decide, ?_, ?_, ?_, ?_⟩
  · intro x y
    simp [tmEq, optLe]
  · intro m
    cases m <;> simp [tmEq]
  · intro m h
    cases m <;> simp_all [tmEq]
  · intro k m h
    cases m <;> simp_all [tmEq]

/-- Witness for C10 at concrete inputs. -/
theorem C10_witness :
    tmEq (.splat (some 2)) (.splat (some 3)) = decide (2 ≤ 3) ∧
    tmEq .undeclared .regular = false ∧
    tmEq (.unwrap 1) .regular = true :=
  ⟨C10_thm.2.1 2 3, (C10_thm.2.2.2.1 .regular (by decide)).1,
   (C10_thm.2.2.2.2 1 .regular (by decide)).1⟩

/-- C8: when neither `<root>/<path>.wu` nor `<root>/<path>/init.wu` exists
and `WU_HOME` is unset, module lookup fails with a message naming both
tried forms and a note naming the missing `WU_HOME` variable; when the
environment lookup runs (because `WU_HOME` is set) and also fails, the
error instead carries the deep-run message that additionally mentions
`$WU_HOME` (and the two messages differ). -/
theorem C8_thm (fs : String → Bool) (path root wuHome : String) (pos : Pos)
    (hfs : ∀ p, fs p = false) :
    find_module fs none false path root pos false =
      .error (VError.mk
        ("no such module `" ++ path ++ "`, needed either `" ++ path ++
         ".wu` or `" ++ path ++ "/init.wu`")
        pos (some "missing environment variable `WU_HOME`")) ∧
    find_module fs (some wuHome) false path root pos false =
      .error (VError.mk
        ("no such module `" ++ path ++ "`, needed either `" ++ path ++
         ".wu`, `" ++ path ++ "/init.wu` or in `$WU_HOME`")
        pos none) ∧
    ("no such module `nope`, needed either `nope.wu` or `nope/init.wu`" : String) ≠
      "no such module `nope`, needed either `nope.wu`, `nope/init.wu` or in `$WU_HOME`" := by
  refine ⟨?_, ?_, by decide⟩
  · simp [find_module, hfs]
  · simp [find_module, hfs]

/-- Witness for C8 on the everywhere-empty filesystem. -/
theorem C8_witness :
    find_module (fun _ => false) none false "nope" "." (Pos.mk 0 (0, 0)) false =
      .error (VError.mk
        ("no such module `" ++ "nope" ++ "`, needed either `" ++ "nope" ++
         ".wu` or `" ++ "nope" ++ "/init.wu`")
        (Pos.mk 0 (0, 0)) (some "missing environment variable `WU_HOME`")) :=
  (C8_thm (fun _ => false) "nope" "." "/home/wu/" (Pos.mk 0 (0, 0)) (fun _ => rfl)).1

set_option maxHeartbeats 2000000 in
/-- C4: with `f : fun(int, int) -> int` in scope, `f(1, 2)` passes the call
checks and the call's inferred type is `int`; `f(1)` fails with the in-loop
mismatched-argument-count error; `f(1, "x")` fails with the
mismatched-types error positioned at the second argument. -/
theorem C4_thm :
    visitExpression 32 c4State c4Call12 = .ok c4State ∧
    typeExpression 32 c4State c4Call12 = .ok (tyInt, c4State) ∧
    visitExpression 32 c4State c4Call1 = .error (.lang (VError.mk
      ("mismatched argument count, expected `" ++ toString 1 ++ "` got " ++ toString 1)
      (Pos.mk posA1.fst (posA1.snd.snd + 1, posA1.snd.snd + 1)) none)) ∧
    visitExpression 32 c4State c4Call1x = .error (.lang (VError.mk
      ("mismatched types, expected type `" ++ displayTypeNode .int ++ "` got `" ++
       displayTy (tyFrom .str) ++ "`") posA2 none)) := by
  refine ⟨?_, ?_, ?_, ?_⟩
  · simp [visitExpression, typeExpression, typeExpressionCore, callArgsLoop,
      deid, deidList, selfImplementTarget, framesFetch, lookupTy, lookupStr,
      tnEq, tnEqRest, tyEq, tyListEq, tmEq, checkExpression, fold_expression,
      tyFrom, Ty.node, Ty.mode, Expression.node, Expression.pos, hasImplement,
      findImplement, Visitor.pushInside, Visitor.popInside, Visitor.withInside,
      Visitor.addMethodCall, c4State, c4Call12, tyInt, posF, posA1, posA2, posC,
      bind, Except.bind, pure, Except.pure]
  · simp [visitExpression, typeExpression, typeExpressionCore, callArgsLoop,
      deid, deidList, selfImplementTarget, framesFetch, lookupTy, lookupStr,
      tyFrom, Ty.node, Ty.mode, Expression.node, Expression.pos,
      findImplement, c4State, c4Call12, tyInt, posF, posA1, posA2, posC,
      bind, Except.bind, pure, Except.pure]
  · simp [visitExpression, typeExpression, typeExpressionCore, callArgsLoop,
      deid, deidList, selfImplementTarget, framesFetch, lookupTy, lookupStr,
      tnEq, tnEqRest, tyEq, tyListEq, tmEq, checkExpression, fold_expression,
      tyFrom, Ty.node, Ty.mode, Expression.node, Expression.pos, hasImplement,
      findImplement, Visitor.pushInside, Visitor.popInside, Visitor.withInside,
      Visitor.addMethodCall, c4State, c4Call1, tyInt, posF, posA1, posA2, posC,
      bind, Except.bind, pure, Except.pure]
  · simp [visitExpression, typeExpression, typeExpressionCore, callArgsLoop,
      deid, deidList, selfImplementTarget, framesFetch, lookupTy, lookupStr,
      tnEq, tnEqRest, tyEq, tyListEq, tmEq, checkExpression, fold_expression,
      tyFrom, Ty.node, Ty.mode, Expression.node, Expression.pos, hasImplement,
      findImplement, Visitor.pushInside, Visitor.popInside, Visitor.withInside,
      Visitor.addMethodCall, c4State, c4Call1x, tyInt, posF, posA1, posA2, posC,
      displayTypeNode, displayTy, displayTypeMode,
      bind, Except.bind, pure, Except.pure]

set_option maxHeartbeats 2000000 in
/-- C6: the literal `[1, 2, 3]` infers as the array type with element node
`int` and fixed length 3; indexing an expression of that type with the
literal 5 fails with the index-out-of-bounds error; indexing it with a
`str` index fails with the can't-index error. -/
theorem C6_thm :
    typeExpression 32 emptyState c6ArrayLit =
      .ok (Ty.mk (.array tyInt (some 3)) .regular, emptyState) ∧
    visitExpression 32 c6State c6Index5 = .error (.lang (VError.mk
      ("index out of bounds, len is " ++ toString 3 ++ " got " ++ toString 5)
      posL none)) ∧
    visitExpression 32 c6State c6IndexStr = .error (.lang (VError.mk
      ("can't index with `" ++ displayTy (tyFrom .str) ++ "`, must be `int`")
      posL none)) := by
  refine ⟨?_, ?_, ?_⟩
  · simp [typeExpression, typeExpressionCore, deid, deidList,
      selfImplementTarget, tyFrom, Ty.node, Ty.mode, Expression.node,
      Expression.pos, findImplement, emptyState, c6ArrayLit, tyInt, posA1,
      posA2, posC, posL, bind, Except.bind, pure, Except.pure]
  · simp [visitExpression, typeExpression, typeExpressionCore, deid, deidList,
      selfImplementTarget, framesFetch, lookupTy, lookupStr, tyFrom, Ty.node,
      Ty.mode, Expression.node, Expression.pos, hasImplement, findImplement,
      fold_expression, c6State, c6Index5, tyInt, posL, posI, posX,
      bind, Except.bind, pure, Except.pure]
  · simp [visitExpression, typeExpression, typeExpressionCore, deid, deidList,
      selfImplementTarget, framesFetch, lookupTy, lookupStr, tyFrom, Ty.node,
      Ty.mode, Expression.node, Expression.pos, hasImplement, findImplement,
      fold_expression, c6State, c6IndexStr, tyInt, posL, posI, posX, displayTy,
      displayTypeMode, displayTypeNode, bind, Except.bind, pure, Except.pure]

set_option maxHeartbeats 4000000 in
/-- C7: declaring `x: int? = nil` type-checks and binds `x : int?`; the
later assignment `x = 5` type-checks; declaring `x: int = nil` fails with
the mismatched-types error. -/
theorem C7_thm :
    visitStatement 32 emptyState c7DeclOk = .ok c7StateAfter ∧
    visitStatement 32 c7StateAfter c7Assign = .ok c7StateAfter ∧
    visitStatement 32 emptyState c7DeclBad = .error (.lang (VError.mk
      ("mismatched types, expected type `" ++ displayTypeNode .int ++ "` got `" ++
       displayTypeNode .nil ++ "`") posN none)) := by
  refine ⟨?_, ?_, ?_⟩
  · simp [visitStatement, visitVariable, visitExpression, typeExpression,
      typeExpressionCore, deid, deidList, selfImplementTarget, framesFetch,
      framesAssign, frameAssign, lookupTy, lookupStr, tnEq, tnEqRest, tyEq,
      tyListEq, tmEq, checkExpression, fold_expression, tnStrongCmp, tyFrom,
      Ty.node, Ty.mode, Expression.node, Expression.pos, hasImplement,
      findImplement, Visitor.assign, Visitor.withFrames, emptyState,
      c7StateAfter, c7DeclOk, optIntTy, tyInt, posD, posN, posL, posI,
      bind, Except.bind, pure, Except.pure]
  · simp [visitStatement, visitVariable, visitExpression, typeExpression,
      typeExpressionCore, deid, deidList, selfImplementTarget, framesFetch,
      framesAssign, frameAssign, lookupTy, lookupStr, tnEq, tnEqRest, tyEq,
      tyListEq, tmEq, checkExpression, fold_expression, tnStrongCmp,
      assertTypes, tyFrom, Ty.node, Ty.mode, Expression.node, Expression.pos,
      hasImplement, findImplement, Visitor.assign, Visitor.withFrames,
      c7StateAfter, c7Assign, optIntTy, tyInt, posD, posN, posL, posI,
      bind, Except.bind, pure, Except.pure]
  · simp [visitStatement, visitVariable, visitExpression, typeExpression,
      typeExpressionCore, deid, deidList, selfImplementTarget, framesFetch,
      framesAssign, frameAssign, lookupTy, lookupStr, tnEq, tnEqRest, tyEq,
      tyListEq, tmEq, checkExpression, fold_expression, tnStrongCmp, tyFrom,
      Ty.node, Ty.mode, Expression.node, Expression.pos, hasImplement,
      findImplement, Visitor.assign, Visitor.withFrames, emptyState,
      c7DeclBad, tyInt, posD, posN, posL, posI, displayTypeNode,
      bind, Except.bind, pure, Except.pure]

set_option maxHeartbeats 2000000 in
/-- C9: indexing `a : [int; n]` with a literal index `a0` raises the
index-out-of-bounds error exactly when `a0 > n`; in particular the literal
index equal to `n` is accepted without error. -/
theorem C9_thm :
    (∀ n a0 : Nat, visitExpression 32 (c9State n) (c9Index a0) =
      if a0 > n then
        .error (.lang (VError.mk
          ("index out of bounds, len is " ++ toString n ++ " got " ++ toString a0)
          posL none))
      else .ok ((c9State n).pushInside .Nothing)) ∧
    (∀ n : Nat, visitExpression 32 (c9State n) (c9Index n) =
      .ok ((c9State n).pushInside .Nothing)) := by
  have h1 : ∀ n a0 : Nat, visitExpression 32 (c9State n) (c9Index a0) =
      if a0 > n then
        .error (.lang (VError.mk
          ("index out of bounds, len is " ++ toString n ++ " got " ++ toString a0)
          posL none))
      else .ok ((c9State n).pushInside .Nothing) := by
    intro n a0
    simp [visitExpression, typeExpression, typeExpressionCore, deid, deidList,
      selfImplementTarget, framesFetch, lookupTy, lookupStr, tyFrom, Ty.node,
      Ty.mode, Expression.node, Expression.pos, hasImplement, findImplement,
      fold_expression, c9State, c9Index, tyInt, posL, posI, posX,
      Visitor.pushInside, Visitor.withInside,
      bind, Except.bind, pure, Except.pure]
  refine ⟨h1, ?_⟩
  intro n
  rw [h1 n n]
  simp
